import Mathlib

/-!
Verification development of `main.go` of delay-slack-post.

The program posts one Slack message carrying a delete button, then runs two goroutines:
a timeout goroutine (lines 130-136) and a Socket Mode event loop (lines 139-185).

The embedding is shallow.  Every call that leaves the process (Slack Web API calls,
acknowledgements, log and stdout lines, sleeps) is recorded as an `Effect`, in program
order.  Everything the outside world decides (environment variables, the random draw,
API errors, the inbound events) is an explicit argument.  `os.Exit` is the `exit` field
of a `Step`; a Go run-time panic is `Status.panicked`.
-/

namespace DelaySlackPost

/-! ## Slack data referenced by the program -/

/-- Text object built by `slack.NewTextBlockObject(type, text, emoji, verbatim)`. -/
structure TextBlockObject where
  Typ : String
  Text : String
  Emoji : Bool
  Verbatim : Bool
  deriving DecidableEq, Repr

/-- Button built by `slack.NewButtonBlockElement(actionID, value, text)`, with its `Style`. -/
structure ButtonBlockElement where
  ActionID : String
  Value : String
  Text : TextBlockObject
  Style : String
  deriving DecidableEq, Repr

/-- The two kinds of block the program builds: a section block (the `nil` fields and
accessory of `slack.NewSectionBlock(text, nil, nil)` carry no data) and an action block. -/
inductive Block where
  | Section (text : TextBlockObject)
  | Action (blockID : String) (elements : List ButtonBlockElement)
  deriving DecidableEq, Repr

/-- One element of `callback.ActionCallback.BlockActions`; only `ActionID` is read. -/
structure BlockAction where
  ActionID : String
  deriving DecidableEq, Repr

/-- The value of `callback.User`. -/
structure SlackUser where
  ID : String
  deriving DecidableEq, Repr

/-- The value of `callback.Channel`. -/
structure SlackChannel where
  ID : String
  deriving DecidableEq, Repr

/-- The value of `callback.Message`. -/
structure SlackMessage where
  Timestamp : String
  deriving DecidableEq, Repr

/-- The value of `callback.ActionCallback`. -/
structure ActionCallbacks where
  BlockActions : List BlockAction
  deriving DecidableEq, Repr

/-- The fields of `slack.InteractionCallback` that `main` reads. -/
structure InteractionCallback where
  User : SlackUser
  Channel : SlackChannel
  Message : SlackMessage
  ActionCallback : ActionCallbacks
  deriving DecidableEq, Repr

/-- The tag `evt.Type`: the two values the `switch` names, and every other value. -/
inductive EventType where
  | Disconnect
  | Interactive
  | Other (name : String)
  deriving DecidableEq, Repr

/-- The dynamic value `evt.Data`: either a `slack.InteractionCallback` (the type assertion
on line 147 succeeds) or a value of some other type (it fails). -/
inductive EventData where
  | Callback (callback : InteractionCallback)
  | Opaque
  deriving DecidableEq, Repr

/-- The envelope `*evt.Request` handed to `socketClient.Ack`. -/
structure Request where
  EnvelopeID : String
  deriving DecidableEq, Repr

/-- One element of the channel `socketClient.Events`.  The Socket Mode client attaches a
request envelope to every interactive event, so `Request` is not optional here. -/
structure Event where
  Typ : EventType
  Data : EventData
  Request : Request
  deriving DecidableEq, Repr

/-! ## Observable effects -/

/-- Everything the program does that is visible outside the process, one constructor per
call site family.  Format strings are kept as written in the source, arguments apart. -/
inductive Effect where
  | logPrintln (msg : String)
  | logPrintf (format : String) (arg : String)
  | logFatal (msg : String)
  | logFatalf (format : String) (arg : String)
  | println (msg : String)
  | printf (format : String) (arg : String)
  | sleep (nanoseconds : Int)
  | postMessage (channel : String) (blocks : List Block)
  | updateMessage (channel : String) (timestamp : String) (blocks : List Block)
  | deleteMessage (channel : String) (timestamp : String)
  | postEphemeral (channel : String) (user : String) (text : String)
  | ack (req : Request)
  deriving DecidableEq, Repr

/-- Recogniser for `socketClient.Ack` calls. -/
def Effect.isAck : Effect → Bool
  | .ack _ => true
  | _ => false

/-- Recogniser for `client.DeleteMessage` calls (the spec's `Delete`). -/
def Effect.isDelete : Effect → Bool
  | .deleteMessage _ _ => true
  | _ => false

/-- Recogniser for `client.UpdateMessage` calls (the spec's `StripControls`). -/
def Effect.isUpdate : Effect → Bool
  | .updateMessage _ _ _ => true
  | _ => false

/-- Recogniser for `client.PostEphemeral` calls (the spec's `NotifyEphemeral`). -/
def Effect.isEphemeral : Effect → Bool
  | .postEphemeral _ _ _ => true
  | _ => false

/-- Recogniser for the calls that start the delay, the post or the timer. -/
def Effect.isSleepOrPost : Effect → Bool
  | .sleep _ => true
  | .postMessage _ _ => true
  | _ => false

/-- Recogniser for `log.Fatal` and `log.Fatalf` calls. -/
def Effect.isFatal : Effect → Bool
  | .logFatal _ => true
  | .logFatalf _ _ => true
  | _ => false

/-- Result of running a piece of a goroutine: the effects it performed, the number of
`DeleteMessage` calls issued so far in the run, and the exit code if it called `os.Exit`. -/
structure Step where
  effects : List Effect
  deletes : Nat
  exit : Option Nat
  deriving DecidableEq, Repr

/-! ## The allow-list check (line 154) -/

/-- Go's `slices.Index(s, v)`: the first index holding `v`, or `-1`. -/
def slicesIndexFrom (v : String) : List String → Nat → Int
  | [], _ => -1
  | x :: xs, i => if v = x then (i : Int) else slicesIndexFrom v xs (i + 1)

/-- Go's `slices.Contains(s, v)`, which is `Index(s, v) >= 0`. -/
def slicesContains (s : List String) (v : String) : Bool :=
  decide (0 ≤ slicesIndexFrom v s 0)

/-! ## The event goroutine (lines 139-185) -/

/-- The loop `for _, action := range callback.ActionCallback.BlockActions` (lines 152-177).
`deleteErr k` is the error returned by the `k`-th `DeleteMessage` call of the run (`none`
for success); the error of `PostEphemeral` is discarded by the source.  Both `continue`
statements (lines 162 and 172) continue this inner loop. -/
def handleBlockActions (allowedUserIDs : List String) (unauthorizedMessage : String)
    (deleteErr : Nat → Option String) (callback : InteractionCallback) (req : Request) :
    List BlockAction → Nat → Step
  | [], k => ⟨[], k, none⟩
  | action :: rest, k =>
    if action.ActionID = "delete_message" then
      if !slicesContains allowedUserIDs callback.User.ID then
        let r := handleBlockActions allowedUserIDs unauthorizedMessage deleteErr callback req rest k
        ⟨[Effect.logPrintf "User %s is not allowed to delete" callback.User.ID,
          Effect.postEphemeral callback.Channel.ID callback.User.ID unauthorizedMessage,
          Effect.ack req] ++ r.effects, r.deletes, r.exit⟩
      else
        match deleteErr k with
        | some err =>
          let r := handleBlockActions allowedUserIDs unauthorizedMessage deleteErr callback req
            rest (k + 1)
          ⟨[Effect.deleteMessage callback.Channel.ID callback.Message.Timestamp,
            Effect.ack req,
            Effect.logPrintf "Failed to delete message: %v" err] ++ r.effects, r.deletes, r.exit⟩
        | none =>
          ⟨[Effect.deleteMessage callback.Channel.ID callback.Message.Timestamp,
            Effect.ack req,
            Effect.println "Message deleted successfully"], k + 1, some 0⟩
    else
      handleBlockActions allowedUserIDs unauthorizedMessage deleteErr callback req rest k

/-- The body of `for evt := range socketClient.Events` (lines 141-180) for one event.
The `switch` has no default case; the `continue` on line 149 skips to the next event. -/
def handleEvent (allowedUserIDs : List String) (unauthorizedMessage : String)
    (deleteErr : Nat → Option String) (evt : Event) (k : Nat) : Step :=
  match evt.Typ with
  | .Disconnect => ⟨[Effect.println "Disconnected from Slack, exiting"], k, some 1⟩
  | .Interactive =>
    match evt.Data with
    | .Callback callback =>
      let r := handleBlockActions allowedUserIDs unauthorizedMessage deleteErr callback
        evt.Request callback.ActionCallback.BlockActions k
      match r.exit with
      | some code => ⟨r.effects, r.deletes, some code⟩
      | none => ⟨r.effects ++ [Effect.ack evt.Request], r.deletes, none⟩
    | .Opaque => ⟨[], k, none⟩
  | .Other _ => ⟨[], k, none⟩

/-- The event goroutine on the events it receives, in order.  `closed` tells whether the
channel is closed after the last of them (lines 182-184); when it is not, the goroutine
is left blocked on the channel and `exit` is `none`. -/
def eventLoop (allowedUserIDs : List String) (unauthorizedMessage : String)
    (deleteErr : Nat → Option String) : List Event → Bool → Nat → Step
  | [], closed, k =>
    if closed then ⟨[Effect.println "Event channel closed, exiting"], k, some 1⟩
    else ⟨[], k, none⟩
  | evt :: rest, closed, k =>
    let r := handleEvent allowedUserIDs unauthorizedMessage deleteErr evt k
    match r.exit with
    | some code => ⟨r.effects, r.deletes, some code⟩
    | none =>
      let r' := eventLoop allowedUserIDs unauthorizedMessage deleteErr rest closed r.deletes
      ⟨r.effects ++ r'.effects, r'.deletes, r'.exit⟩

/-! ## The timeout goroutine (lines 130-136) -/

/-- Two's-complement wrap-around of an integer into `bits` bits (Go's signed overflow). -/
def wrapInt (bits : Nat) (x : Int) : Int :=
  (x + 2 ^ (bits - 1)) % 2 ^ bits - 2 ^ (bits - 1)

/-- The value `time.Duration(sec) * time.Second`, an `int64` count of nanoseconds. -/
def secondsDuration (sec : Int) : Int :=
  wrapInt 64 (sec * 1000000000)

/-- The block `timeoutTextBlock` (lines 108-112). -/
def timeoutTextBlock (timeoutMessage : String) : Block :=
  Block.Section ⟨"mrkdwn", timeoutMessage, false, false⟩

/-- Final state of a whole run: `os.Exit(code)` or a Go run-time panic. -/
inductive Status where
  | exited (code : Nat)
  | panicked (msg : String)
  deriving DecidableEq, Repr

/-- A finished run: its effects in order and how the process ended. -/
structure Run where
  effects : List Effect
  status : Status
  deriving DecidableEq, Repr

/-- The timeout goroutine run to its end.  `updateErr` is what `client.UpdateMessage`
returns; the source discards all three return values of that call. -/
def timeoutHandler (channelID : String) (timestamp : String) (timeoutSec : Int)
    (timeoutMessage : String) (_updateErr : Option String) : Run :=
  ⟨[Effect.sleep (secondsDuration timeoutSec),
    Effect.updateMessage channelID timestamp [timeoutTextBlock timeoutMessage],
    Effect.println "Timeout reached, exiting"], Status.exited 0⟩

/-! ## Configuration loading (lines 23-80) -/

/-- Decimal digits folded left to right as in Go's `n = n*10 + int(ch)`; `none` on a byte
that is not `0`-`9`. -/
def parseDigits : List Char → Nat → Option Nat
  | [], acc => some acc
  | c :: cs, acc =>
    if '0' ≤ c ∧ c ≤ '9' then parseDigits cs (acc * 10 + (c.toNat - 48)) else none

/-- Go's `strconv.Atoi` (standard library, base 10): an optional sign followed by at least
one decimal digit, the value within the range of an `int` of `intSize` bits.  `none`
stands for a non-nil error. -/
def Atoi (intSize : Nat) (s : String) : Option Int :=
  match s.toList with
  | [] => none
  | c :: cs =>
    let body := if c = '-' ∨ c = '+' then cs else c :: cs
    if body = [] then none
    else
      match parseDigits body 0 with
      | none => none
      | some n =>
        let v : Int := if c = '-' then -(n : Int) else (n : Int)
        if v < -(2 ^ (intSize - 1)) ∨ 2 ^ (intSize - 1) ≤ v then none else some v

/-- Go's `strings.Split(s, ",")` on the characters of `s`; `cur` holds the current piece
reversed. -/
def stringsSplitAux : List Char → List Char → List String
  | [], cur => [String.mk cur.reverse]
  | c :: cs, cur =>
    if c = ',' then String.mk cur.reverse :: stringsSplitAux cs []
    else stringsSplitAux cs (c :: cur)

/-- Go's `strings.Split(s, ",")`. -/
def stringsSplit (s : String) : List String :=
  stringsSplitAux s.toList []

/-- The ten values `main` reads from the environment, after parsing. -/
structure Config where
  botToken : String
  appToken : String
  channelID : String
  message : String
  timeoutSec : Int
  maxDelaySec : Int
  buttonLabel : String
  timeoutMessage : String
  allowedUserIDs : List String
  unauthorizedMessage : String
  deriving DecidableEq, Repr

/-- Lines 23-80: `getenv` is `os.Getenv` (the empty string for an unset variable).  On
failure the result is the `log.Fatal`/`log.Fatalf` call made; for the two `Fatalf` calls
the recorded argument is the string that `Atoi` rejected, which determines the error
value Go prints. -/
def loadConfig (intSize : Nat) (getenv : String → String) : Except Effect Config :=
  let botToken := getenv "SLACK_BOT_TOKEN"
  if botToken = "" then .error (.logFatal "SLACK_BOT_TOKEN environment variable is required")
  else
  let appToken := getenv "SLACK_APP_TOKEN"
  if appToken = "" then .error (.logFatal "SLACK_APP_TOKEN environment variable is required")
  else
  let channelID := getenv "SLACK_CHANNEL_ID"
  if channelID = "" then .error (.logFatal "SLACK_CHANNEL_ID environment variable is required")
  else
  let message := getenv "MESSAGE"
  if message = "" then .error (.logFatal "MESSAGE environment variable is required")
  else
  let timeoutStr := getenv "TIMEOUT_SECONDS"
  if timeoutStr = "" then .error (.logFatal "TIMEOUT_SECONDS environment variable is required")
  else
  match Atoi intSize timeoutStr with
  | none => .error (.logFatalf "Invalid TIMEOUT_SECONDS: %v" timeoutStr)
  | some timeoutSec =>
  let maxDelayStr := getenv "MAX_DELAY_SECONDS"
  if maxDelayStr = "" then
    .error (.logFatal "MAX_DELAY_SECONDS environment variable is required")
  else
  match Atoi intSize maxDelayStr with
  | none => .error (.logFatalf "Invalid MAX_DELAY_SECONDS: %v" maxDelayStr)
  | some maxDelaySec =>
  let buttonLabel := getenv "DELETE_BUTTON_LABEL"
  if buttonLabel = "" then
    .error (.logFatal "DELETE_BUTTON_LABEL environment variable is required")
  else
  let timeoutMessage := getenv "TIMEOUT_MESSAGE"
  if timeoutMessage = "" then
    .error (.logFatal "TIMEOUT_MESSAGE environment variable is required")
  else
  let allowedUserIDsStr := getenv "ALLOWED_USER_IDS"
  if allowedUserIDsStr = "" then
    .error (.logFatal "ALLOWED_USER_IDS environment variable is required")
  else
  let allowedUserIDs := stringsSplit allowedUserIDsStr
  let unauthorizedMessage := getenv "UNAUTHORIZED_MESSAGE"
  if unauthorizedMessage = "" then
    .error (.logFatal "UNAUTHORIZED_MESSAGE environment variable is required")
  else
  .ok ⟨botToken, appToken, channelID, message, timeoutSec, maxDelaySec, buttonLabel,
    timeoutMessage, allowedUserIDs, unauthorizedMessage⟩

/-! ## The random delay (lines 114-117) -/

/-- Go's `rand.IntN(n)` (standard library `math/rand/v2`): panics when `n <= 0`, otherwise
returns a value of the half-open range `[0, n)`.  `draw` is the raw output of the random
source; reducing it modulo `n` reaches every value of the range. -/
def IntN (n : Int) (draw : Nat) : Option Int :=
  if n ≤ 0 then none else some ((draw : Int) % n)

/-- Line 115: `rand.IntN(maxDelaySec + 1)`, the addition done in `int` arithmetic of
`intSize` bits.  `none` is the panic of `IntN`. -/
def computeDelay (intSize : Nat) (maxDelaySec : Int) (draw : Nat) : Option Int :=
  IntN (wrapInt intSize (maxDelaySec + 1)) draw

/-! ## The program -/

/-- The button `deleteButton` (lines 90-95). -/
def deleteButton (buttonLabel : String) : ButtonBlockElement :=
  ⟨"delete_message", "delete", ⟨"plain_text", buttonLabel, false, false⟩, "danger"⟩

/-- The block `actionBlock` (lines 97-100). -/
def actionBlock (buttonLabel : String) : Block :=
  Block.Action "actions" [deleteButton buttonLabel]

/-- The block `textBlock` (lines 102-106). -/
def textBlock (message : String) : Block :=
  Block.Section ⟨"mrkdwn", message, false, false⟩

/-- What the outside world decides during one run. -/
structure World where
  /-- Whether `godotenv.Load` returned an error. -/
  dotenvErr : Bool
  /-- The environment seen by `os.Getenv` once `godotenv.Load` has returned. -/
  getenv : String → String
  /-- The raw output of the random source. -/
  draw : Nat
  /-- The result of `client.PostMessage`: an error text or the message timestamp. -/
  postResult : Except String String
  /-- The error of the `k`-th `client.DeleteMessage` call, `none` for success. -/
  deleteErr : Nat → Option String
  /-- The error of `client.UpdateMessage`, `none` for success. -/
  updateErr : Option String
  /-- The events the event goroutine receives before the timer fires, in order. -/
  events : List Event
  /-- Whether the event channel is closed after the last of `events`. -/
  closed : Bool

/-- The two goroutines started after a successful post, under the schedule in which the
event goroutine handles `events` completely before the timer fires: if it exits, the
process ends there; otherwise the timer fires and the timeout goroutine runs to its exit.
The event goroutine captures the allow-list and the rejection text only, not the handle
`(channelID, timestamp)`. -/
def afterPost (cfg : Config) (timestamp : String) (deleteErr : Nat → Option String)
    (updateErr : Option String) (events : List Event) (closed : Bool) : Run :=
  let r := eventLoop cfg.allowedUserIDs cfg.unauthorizedMessage deleteErr events closed 0
  match r.exit with
  | some code => ⟨r.effects, Status.exited code⟩
  | none =>
    let t := timeoutHandler cfg.channelID timestamp cfg.timeoutSec cfg.timeoutMessage updateErr
    ⟨r.effects ++ t.effects, t.status⟩

/-- The function `main` (lines 18-190).  `log.Fatal` and `log.Fatalf` end the process with
exit code 1.  The library call `socketClient.Run` (line 187), which feeds the event
channel, is represented by the events it delivers. -/
def main (intSize : Nat) (w : World) : Run :=
  let pre := if w.dotenvErr then
    [Effect.logPrintln "No .env file found, using environment variables"] else []
  match loadConfig intSize w.getenv with
  | .error fatal => ⟨pre ++ [fatal], Status.exited 1⟩
  | .ok cfg =>
    match computeDelay intSize cfg.maxDelaySec w.draw with
    | none => ⟨pre, Status.panicked "invalid argument to IntN"⟩
    | some delaySec =>
      let waited := pre ++
        [Effect.printf "Waiting %d seconds before posting...\n" (toString delaySec),
         Effect.sleep (secondsDuration delaySec),
         Effect.postMessage cfg.channelID [textBlock cfg.message, actionBlock cfg.buttonLabel]]
      match w.postResult with
      | .error err =>
        ⟨waited ++ [Effect.logFatalf "Failed to post message: %v" err], Status.exited 1⟩
      | .ok timestamp =>
        let r := afterPost cfg timestamp w.deleteErr w.updateErr w.events w.closed
        ⟨waited ++ [Effect.printf "Message posted successfully at %s\n" timestamp] ++ r.effects,
          r.status⟩

/-- A complete environment used in the examples: every variable set, `U1` allowed. -/
def sampleEnv (timeoutStr : String) (maxDelayStr : String) : String → String := fun key =>
  if key = "SLACK_BOT_TOKEN" then "xoxb-1"
  else if key = "SLACK_APP_TOKEN" then "xapp-1"
  else if key = "SLACK_CHANNEL_ID" then "C1"
  else if key = "MESSAGE" then "hello"
  else if key = "TIMEOUT_SECONDS" then timeoutStr
  else if key = "MAX_DELAY_SECONDS" then maxDelayStr
  else if key = "DELETE_BUTTON_LABEL" then "Delete"
  else if key = "TIMEOUT_MESSAGE" then "expired"
  else if key = "ALLOWED_USER_IDS" then "U1"
  else if key = "UNAUTHORIZED_MESSAGE" then "not allowed"
  else ""

/-- The configuration loaded from `sampleEnv "5" "0"`: timeout 5 s, no delay, `U1` allowed. -/
def sampleConfig : Config :=
  ⟨"xoxb-1", "xapp-1", "C1", "hello", 5, 0, "Delete", "expired", ["U1"], "not allowed"⟩

/-- A delete interaction: one `delete_message` action by `user` on message `(channel, ts)`. -/
def deleteEvent (user : String) (channel : String) (ts : String) (envelope : String) : Event :=
  ⟨.Interactive, .Callback ⟨⟨user⟩, ⟨channel⟩, ⟨ts⟩, ⟨[⟨"delete_message"⟩]⟩⟩, ⟨envelope⟩⟩

/-! ## Vocabulary for stating properties -/

/-- The `delete_message` actions carried by a callback, in order. -/
def deleteActions (callback : InteractionCallback) : List BlockAction :=
  callback.ActionCallback.BlockActions.filter (fun a => a.ActionID = "delete_message")

/-- An interactive event whose payload is the interaction callback `callback`. -/
def interactive (callback : InteractionCallback) (req : Request) : Event :=
  ⟨.Interactive, .Callback callback, req⟩

/-- Number of `socketClient.Ack` calls in a trace. -/
def countAcks (t : List Effect) : Nat := t.countP Effect.isAck

/-- Number of `client.DeleteMessage` calls in a trace. -/
def countDeletes (t : List Effect) : Nat := t.countP Effect.isDelete

/-- Number of `client.UpdateMessage` calls in a trace. -/
def countUpdates (t : List Effect) : Nat := t.countP Effect.isUpdate

/-- The three calls made for one rejected delete action (lines 155-161). -/
def rejection (callback : InteractionCallback) (req : Request) (unauthorizedMessage : String) :
    List Effect :=
  [Effect.logPrintf "User %s is not allowed to delete" callback.User.ID,
   Effect.postEphemeral callback.Channel.ID callback.User.ID unauthorizedMessage,
   Effect.ack req]

/-- The calls made for `n` rejected delete actions in a row. -/
def rejections (callback : InteractionCallback) (req : Request) (unauthorizedMessage : String) :
    Nat → List Effect
  | 0 => []
  | n + 1 => rejection callback req unauthorizedMessage ++
      rejections callback req unauthorizedMessage n

/-- The three calls made for a delete action whose `DeleteMessage` succeeds (lines 165-174). -/
def deletion (callback : InteractionCallback) (req : Request) : List Effect :=
  [Effect.deleteMessage callback.Channel.ID callback.Message.Timestamp,
   Effect.ack req,
   Effect.println "Message deleted successfully"]

/-- A world in which configuration, delay and post succeed (timestamp `100.1`), with the
given events and channel state for the event goroutine. -/
def sampleWorld (deleteErr : Nat → Option String) (events : List Event) (closed : Bool) :
    World :=
  ⟨false, sampleEnv "5" "0", 0, .ok "100.1", deleteErr, none, events, closed⟩

/-- The condition under which lines 23-80 reach line 82: the ten variables are non-empty
and the two numeric ones are accepted by `Atoi`. -/
def configAccepted (intSize : Nat) (getenv : String → String) : Prop :=
  getenv "SLACK_BOT_TOKEN" ≠ "" ∧ getenv "SLACK_APP_TOKEN" ≠ "" ∧
  getenv "SLACK_CHANNEL_ID" ≠ "" ∧ getenv "MESSAGE" ≠ "" ∧
  getenv "TIMEOUT_SECONDS" ≠ "" ∧ (Atoi intSize (getenv "TIMEOUT_SECONDS")).isSome = true ∧
  getenv "MAX_DELAY_SECONDS" ≠ "" ∧ (Atoi intSize (getenv "MAX_DELAY_SECONDS")).isSome = true ∧
  getenv "DELETE_BUTTON_LABEL" ≠ "" ∧ getenv "TIMEOUT_MESSAGE" ≠ "" ∧
  getenv "ALLOWED_USER_IDS" ≠ "" ∧ getenv "UNAUTHORIZED_MESSAGE" ≠ ""

instance (intSize : Nat) (getenv : String → String) :
    Decidable (configAccepted intSize getenv) := by
  unfold configAccepted
  exact inferInstance

/-! ## The two goroutines running concurrently (lines 130 and 139) -/

/-- One scheduling decision: which of the two goroutines started by `go func()` on lines
130 and 139 makes its next move. -/
inductive Turn where
  | timer
  | events
  deriving DecidableEq, Repr

/-- The run of the two goroutines under a schedule.  Neither goroutine writes a variable
the other reads, so a run is an order-preserving merge of their call sequences, cut at the
first `os.Exit`.  `timerCalls` are the calls the timeout goroutine still has to make; once
they are made its next move is `os.Exit(0)` (line 135).  `eventCalls` are the calls the
event goroutine still has to make for the events it receives; once they are made its next
move is `os.Exit(code)` when `eventExit = some code`, and otherwise it stays blocked on
the channel.  The second component is the exit code, `none` while the process is running. -/
def interleave : List Turn → List Effect → List Effect → Option Nat → List Effect × Option Nat
  | [], _, _, _ => ([], none)
  | Turn.timer :: _, [], _, _ => ([], some 0)
  | Turn.timer :: sched, t :: timerCalls, eventCalls, eventExit =>
    (t :: (interleave sched timerCalls eventCalls eventExit).1,
      (interleave sched timerCalls eventCalls eventExit).2)
  | Turn.events :: _, _, [], some code => ([], some code)
  | Turn.events :: sched, timerCalls, [], none => interleave sched timerCalls [] none
  | Turn.events :: sched, timerCalls, e :: eventCalls, eventExit =>
    (e :: (interleave sched timerCalls eventCalls eventExit).1,
      (interleave sched timerCalls eventCalls eventExit).2)

/-- The two goroutines started after a successful post, under an arbitrary schedule: the
timeout goroutine of `timeoutHandler` and the event goroutine of `eventLoop` on the events
it receives during the run. -/
def concurrentPhase (cfg : Config) (timestamp : String) (deleteErr : Nat → Option String)
    (updateErr : Option String) (events : List Event) (closed : Bool) (sched : List Turn) :
    List Effect × Option Nat :=
  interleave sched
    (timeoutHandler cfg.channelID timestamp cfg.timeoutSec cfg.timeoutMessage updateErr).effects
    (eventLoop cfg.allowedUserIDs cfg.unauthorizedMessage deleteErr events closed 0).effects
    (eventLoop cfg.allowedUserIDs cfg.unauthorizedMessage deleteErr events closed 0).exit

/-! ## Lemmas on the allow-list check -/

theorem slicesIndexFrom_nonneg_iff (v : String) (s : List String) (i : Nat) :
    0 ≤ slicesIndexFrom v s i ↔ v ∈ s := by
  induction s generalizing i with
  | nil => simp [slicesIndexFrom]
  | cons x xs ih =>
    simp only [slicesIndexFrom]
    split
    · rename_i h
      simp [h]
    · rename_i h
      rw [ih]
      simp [h]

theorem slicesContains_iff (s : List String) (v : String) :
    slicesContains s v = true ↔ v ∈ s := by
  simp [slicesContains, slicesIndexFrom_nonneg_iff]

theorem slicesContains_eq_false_iff (s : List String) (v : String) :
    slicesContains s v = false ↔ v ∉ s := by
  rw [← slicesContains_iff]
  simp

/-! ## Lemmas on the inner loop over block actions -/

section InnerLoop

variable (allowed : List String) (msg : String) (deleteErr : Nat → Option String)
  (cb : InteractionCallback) (req : Request)

theorem hba_no_delete (acts : List BlockAction) (k : Nat)
    (h : acts.filter (fun a => a.ActionID = "delete_message") = []) :
    handleBlockActions allowed msg deleteErr cb req acts k = ⟨[], k, none⟩ := by
  induction acts with
  | nil => rfl
  | cons a rest ih =>
    by_cases ha : a.ActionID = "delete_message"
    · simp [List.filter, ha] at h
    · have hrest : rest.filter (fun a => a.ActionID = "delete_message") = [] := by
        simpa [List.filter, ha] using h
      simp [handleBlockActions, ha, ih hrest]

theorem hba_unauthorized (hun : cb.User.ID ∉ allowed) (acts : List BlockAction) (k : Nat) :
    handleBlockActions allowed msg deleteErr cb req acts k =
      ⟨rejections cb req msg (acts.filter (fun a => a.ActionID = "delete_message")).length,
        k, none⟩ := by
  have hc : slicesContains allowed cb.User.ID = false :=
    (slicesContains_eq_false_iff _ _).2 hun
  induction acts with
  | nil => rfl
  | cons a rest ih =>
    by_cases ha : a.ActionID = "delete_message"
    · simp [handleBlockActions, ha, hc, ih, rejections, rejection]
    · simp [handleBlockActions, ha, ih]

theorem hba_first_delete_ok (hau : cb.User.ID ∈ allowed) (acts : List BlockAction) (k : Nat)
    (hne : acts.filter (fun a => a.ActionID = "delete_message") ≠ [])
    (hok : deleteErr k = none) :
    handleBlockActions allowed msg deleteErr cb req acts k =
      ⟨deletion cb req, k + 1, some 0⟩ := by
  have hc : slicesContains allowed cb.User.ID = true := (slicesContains_iff _ _).2 hau
  induction acts with
  | nil => simp at hne
  | cons a rest ih =>
    by_cases ha : a.ActionID = "delete_message"
    · simp [handleBlockActions, ha, hc, hok, deletion]
    · have hrest : rest.filter (fun a => a.ActionID = "delete_message") ≠ [] := by
        simpa [List.filter, ha] using hne
      simp [handleBlockActions, ha, ih hrest]

theorem hba_exit_zero (acts : List BlockAction) (k : Nat) (code : Nat)
    (h : (handleBlockActions allowed msg deleteErr cb req acts k).exit = some code) :
    code = 0 := by
  induction acts generalizing k with
  | nil => simp [handleBlockActions] at h
  | cons a rest ih =>
    simp only [handleBlockActions] at h
    split at h
    · split at h
      · exact ih _ h
      · split at h
        · exact ih _ h
        · simpa using h.symm
    · exact ih _ h

theorem hba_no_update (acts : List BlockAction) (k : Nat) :
    ∀ e ∈ (handleBlockActions allowed msg deleteErr cb req acts k).effects,
      e.isUpdate = false := by
  induction acts generalizing k with
  | nil => simp [handleBlockActions]
  | cons a rest ih =>
    simp only [handleBlockActions]
    split
    · split
      · intro e he
        simp only [List.mem_append, List.mem_cons, List.mem_singleton, List.not_mem_nil,
          or_false] at he
        rcases he with (rfl | rfl | rfl) | he
        · rfl
        · rfl
        · rfl
        · exact ih _ e he
      · split
        · intro e he
          simp only [List.mem_append, List.mem_cons, List.mem_singleton, List.not_mem_nil,
            or_false] at he
          rcases he with (rfl | rfl | rfl) | he
          · rfl
          · rfl
          · rfl
          · exact ih _ e he
        · intro e he
          simp only [List.mem_cons, List.mem_singleton, List.not_mem_nil, or_false] at he
          rcases he with rfl | rfl | rfl <;> rfl
    · exact ih _

theorem hba_delete_target (acts : List BlockAction) (k : Nat) :
    ∀ e ∈ (handleBlockActions allowed msg deleteErr cb req acts k).effects,
      e.isDelete = true →
        e = Effect.deleteMessage cb.Channel.ID cb.Message.Timestamp ∧
        cb.User.ID ∈ allowed := by
  induction acts generalizing k with
  | nil => simp [handleBlockActions]
  | cons a rest ih =>
    simp only [handleBlockActions]
    split
    · split
      · intro e he hd
        simp only [List.mem_append, List.mem_cons, List.mem_singleton, List.not_mem_nil,
          or_false] at he
        rcases he with (rfl | rfl | rfl) | he
        · simp [Effect.isDelete] at hd
        · simp [Effect.isDelete] at hd
        · simp [Effect.isDelete] at hd
        · exact ih _ e he hd
      · rename_i hc
        have hau : cb.User.ID ∈ allowed := by
          rw [← slicesContains_iff]
          simpa using hc
        split
        · intro e he hd
          simp only [List.mem_append, List.mem_cons, List.mem_singleton, List.not_mem_nil,
            or_false] at he
          rcases he with (rfl | rfl | rfl) | he
          · exact ⟨rfl, hau⟩
          · simp [Effect.isDelete] at hd
          · simp [Effect.isDelete] at hd
          · exact ih _ e he hd
        · intro e he hd
          simp only [List.mem_cons, List.mem_singleton, List.not_mem_nil, or_false] at he
          rcases he with rfl | rfl | rfl
          · exact ⟨rfl, hau⟩
          · simp [Effect.isDelete] at hd
          · simp [Effect.isDelete] at hd
    · exact ih _

theorem hba_exit_iff (hau : cb.User.ID ∈ allowed) (acts : List BlockAction) (k : Nat) :
    (handleBlockActions allowed msg deleteErr cb req acts k).exit = some 0 ↔
      ∃ i, i < (acts.filter (fun a => a.ActionID = "delete_message")).length ∧
        deleteErr (k + i) = none := by
  have hc : slicesContains allowed cb.User.ID = true := (slicesContains_iff _ _).2 hau
  induction acts generalizing k with
  | nil => simp [handleBlockActions]
  | cons a rest ih =>
    by_cases ha : a.ActionID = "delete_message"
    · cases hk : deleteErr k with
      | none =>
        simp only [handleBlockActions, ha, hc, hk, if_true, Bool.not_true, Bool.false_eq_true,
          if_false, true_iff]
        exact ⟨0, by simp [List.filter, ha], by simpa using hk⟩
      | some err =>
        simp only [handleBlockActions, ha, hc, hk, if_true, Bool.not_true, Bool.false_eq_true,
          if_false]
        refine (ih (k + 1)).trans ?_
        constructor
        · rintro ⟨i, hi, hd⟩
          refine ⟨i + 1, by simpa [List.filter, ha] using hi, ?_⟩
          rw [← hd]
          congr 1
          omega
        · rintro ⟨i, hi, hd⟩
          cases i with
          | zero => simp [hk] at hd
          | succ j =>
            refine ⟨j, by simpa [List.filter, ha] using hi, ?_⟩
            rw [← hd]
            congr 1
            omega
    · simp only [handleBlockActions, ha, if_false]
      refine (ih k).trans ?_
      simp [List.filter, ha]

theorem hba_authorized_mem (hau : cb.User.ID ∈ allowed) (acts : List BlockAction) (k : Nat)
    (hne : acts.filter (fun a => a.ActionID = "delete_message") ≠ []) :
    Effect.deleteMessage cb.Channel.ID cb.Message.Timestamp ∈
        (handleBlockActions allowed msg deleteErr cb req acts k).effects ∧
      Effect.ack req ∈ (handleBlockActions allowed msg deleteErr cb req acts k).effects ∧
      (∀ err, deleteErr k = some err →
        Effect.logPrintf "Failed to delete message: %v" err ∈
          (handleBlockActions allowed msg deleteErr cb req acts k).effects) := by
  have hc : slicesContains allowed cb.User.ID = true := (slicesContains_iff _ _).2 hau
  induction acts with
  | nil => simp at hne
  | cons a rest ih =>
    by_cases ha : a.ActionID = "delete_message"
    · cases hk : deleteErr k with
      | none => simp [handleBlockActions, ha, hc, hk]
      | some err => simp [handleBlockActions, ha, hc, hk]
    · have hrest : rest.filter (fun a => a.ActionID = "delete_message") ≠ [] := by
        simpa [List.filter, ha] using hne
      simpa [handleBlockActions, ha] using ih hrest

end InnerLoop

/-! ## Lemmas on the event loop -/

section EventLoop

variable (allowed : List String) (msg : String) (deleteErr : Nat → Option String)

theorem handleEvent_interactive (cb : InteractionCallback) (req : Request) (k : Nat) :
    handleEvent allowed msg deleteErr (interactive cb req) k =
      match (handleBlockActions allowed msg deleteErr cb req
          cb.ActionCallback.BlockActions k).exit with
      | some code =>
        ⟨(handleBlockActions allowed msg deleteErr cb req
            cb.ActionCallback.BlockActions k).effects,
          (handleBlockActions allowed msg deleteErr cb req
            cb.ActionCallback.BlockActions k).deletes, some code⟩
      | none =>
        ⟨(handleBlockActions allowed msg deleteErr cb req
            cb.ActionCallback.BlockActions k).effects ++ [Effect.ack req],
          (handleBlockActions allowed msg deleteErr cb req
            cb.ActionCallback.BlockActions k).deletes, none⟩ := by
  rfl

theorem handleEvent_rejected (cb : InteractionCallback) (req : Request) (k : Nat)
    (hun : cb.User.ID ∉ allowed) :
    handleEvent allowed msg deleteErr (interactive cb req) k =
      ⟨rejections cb req msg (deleteActions cb).length ++ [Effect.ack req], k, none⟩ := by
  rw [handleEvent_interactive, hba_unauthorized allowed msg deleteErr cb req hun]
  rfl

theorem handleEvent_deleted (cb : InteractionCallback) (req : Request) (k : Nat)
    (hau : cb.User.ID ∈ allowed) (hne : deleteActions cb ≠ []) (hok : deleteErr k = none) :
    handleEvent allowed msg deleteErr (interactive cb req) k =
      ⟨deletion cb req, k + 1, some 0⟩ := by
  rw [handleEvent_interactive, hba_first_delete_ok allowed msg deleteErr cb req hau _ k hne hok]

theorem handleEvent_no_delete_action (cb : InteractionCallback) (req : Request) (k : Nat)
    (hnone : deleteActions cb = []) :
    handleEvent allowed msg deleteErr (interactive cb req) k = ⟨[Effect.ack req], k, none⟩ := by
  rw [handleEvent_interactive, hba_no_delete allowed msg deleteErr cb req _ k hnone]
  rfl

theorem handleEvent_no_update (evt : Event) (k : Nat) :
    ∀ e ∈ (handleEvent allowed msg deleteErr evt k).effects, e.isUpdate = false := by
  obtain ⟨typ, data, req⟩ := evt
  cases typ with
  | Disconnect =>
    intro e he
    simp only [handleEvent, List.mem_singleton] at he
    subst he
    rfl
  | Other name => simp [handleEvent]
  | Interactive =>
    cases data with
    | Opaque => simp [handleEvent]
    | Callback cb =>
      have h := hba_no_update allowed msg deleteErr cb req cb.ActionCallback.BlockActions k
      simp only [handleEvent]
      split
      · exact h
      · intro e he
        simp only [List.mem_append, List.mem_singleton] at he
        rcases he with he | rfl
        · exact h e he
        · rfl

theorem handleEvent_delete_target (evt : Event) (k : Nat) :
    ∀ e ∈ (handleEvent allowed msg deleteErr evt k).effects, e.isDelete = true →
      ∃ cb, evt.Typ = EventType.Interactive ∧ evt.Data = EventData.Callback cb ∧
        cb.User.ID ∈ allowed ∧
        e = Effect.deleteMessage cb.Channel.ID cb.Message.Timestamp := by
  obtain ⟨typ, data, req⟩ := evt
  cases typ with
  | Disconnect =>
    intro e he hd
    simp only [handleEvent, List.mem_singleton] at he
    subst he
    simp [Effect.isDelete] at hd
  | Other name => simp [handleEvent]
  | Interactive =>
    cases data with
    | Opaque => simp [handleEvent]
    | Callback cb =>
      have h := hba_delete_target allowed msg deleteErr cb req cb.ActionCallback.BlockActions k
      intro e he hd
      refine ⟨cb, rfl, rfl, ?_⟩
      simp only [handleEvent] at he
      split at he
      · exact ⟨(h e he hd).2, (h e he hd).1⟩
      · simp only [List.mem_append, List.mem_singleton] at he
        rcases he with he | rfl
        · exact ⟨(h e he hd).2, (h e he hd).1⟩
        · simp [Effect.isDelete] at hd

theorem handleEvent_other (evt : Event) (k : Nat) (name : String)
    (h : evt.Typ = EventType.Other name) :
    handleEvent allowed msg deleteErr evt k = ⟨[], k, none⟩ := by
  obtain ⟨typ, data, req⟩ := evt
  simp only at h
  subst h
  rfl

theorem eventLoop_cons_continue (evt : Event) (rest : List Event) (closed : Bool) (k : Nat)
    (h : (handleEvent allowed msg deleteErr evt k).exit = none) :
    eventLoop allowed msg deleteErr (evt :: rest) closed k =
      ⟨(handleEvent allowed msg deleteErr evt k).effects ++
          (eventLoop allowed msg deleteErr rest closed
            (handleEvent allowed msg deleteErr evt k).deletes).effects,
        (eventLoop allowed msg deleteErr rest closed
            (handleEvent allowed msg deleteErr evt k).deletes).deletes,
        (eventLoop allowed msg deleteErr rest closed
            (handleEvent allowed msg deleteErr evt k).deletes).exit⟩ := by
  simp only [eventLoop, h]

theorem eventLoop_cons_exit (evt : Event) (rest : List Event) (closed : Bool) (k : Nat)
    (code : Nat) (h : (handleEvent allowed msg deleteErr evt k).exit = some code) :
    eventLoop allowed msg deleteErr (evt :: rest) closed k =
      ⟨(handleEvent allowed msg deleteErr evt k).effects,
        (handleEvent allowed msg deleteErr evt k).deletes, some code⟩ := by
  simp only [eventLoop, h]

theorem eventLoop_append (pre rest : List Event) (closed : Bool) (k : Nat)
    (h : (eventLoop allowed msg deleteErr pre false k).exit = none) :
    eventLoop allowed msg deleteErr (pre ++ rest) closed k =
      ⟨(eventLoop allowed msg deleteErr pre false k).effects ++
          (eventLoop allowed msg deleteErr rest closed
            (eventLoop allowed msg deleteErr pre false k).deletes).effects,
        (eventLoop allowed msg deleteErr rest closed
            (eventLoop allowed msg deleteErr pre false k).deletes).deletes,
        (eventLoop allowed msg deleteErr rest closed
            (eventLoop allowed msg deleteErr pre false k).deletes).exit⟩ := by
  induction pre generalizing k with
  | nil => simp [eventLoop]
  | cons evt pre ih =>
    cases hx : (handleEvent allowed msg deleteErr evt k).exit with
    | some code =>
      rw [eventLoop_cons_exit allowed msg deleteErr evt pre false k code hx] at h
      simp at h
    | none =>
      rw [eventLoop_cons_continue allowed msg deleteErr evt pre false k hx] at h
      simp only at h
      rw [List.cons_append, eventLoop_cons_continue allowed msg deleteErr evt _ closed k hx,
        eventLoop_cons_continue allowed msg deleteErr evt pre false k hx, ih _ h]
      simp

theorem eventLoop_no_update (evts : List Event) (closed : Bool) (k : Nat) :
    ∀ e ∈ (eventLoop allowed msg deleteErr evts closed k).effects, e.isUpdate = false := by
  induction evts generalizing k with
  | nil =>
    intro e he
    simp only [eventLoop] at he
    split at he
    · simp only [List.mem_singleton] at he
      subst he
      rfl
    · simp at he
  | cons evt rest ih =>
    have h1 := handleEvent_no_update allowed msg deleteErr evt k
    simp only [eventLoop]
    split
    · exact h1
    · intro e he
      simp only [List.mem_append] at he
      rcases he with he | he
      · exact h1 e he
      · exact ih _ e he

theorem eventLoop_delete_target (evts : List Event) (closed : Bool) (k : Nat) :
    ∀ e ∈ (eventLoop allowed msg deleteErr evts closed k).effects, e.isDelete = true →
      ∃ evt ∈ evts, ∃ cb, evt.Typ = EventType.Interactive ∧ evt.Data = EventData.Callback cb ∧
        cb.User.ID ∈ allowed ∧
        e = Effect.deleteMessage cb.Channel.ID cb.Message.Timestamp := by
  induction evts generalizing k with
  | nil =>
    intro e he hd
    simp only [eventLoop] at he
    split at he
    · simp only [List.mem_singleton] at he
      subst he
      simp [Effect.isDelete] at hd
    · simp at he
  | cons evt rest ih =>
    have h1 := handleEvent_delete_target allowed msg deleteErr evt k
    simp only [eventLoop]
    split
    · intro e he hd
      exact ⟨evt, List.mem_cons_self _ _, h1 e he hd⟩
    · intro e he hd
      simp only [List.mem_append] at he
      rcases he with he | he
      · exact ⟨evt, List.mem_cons_self _ _, h1 e he hd⟩
      · obtain ⟨evt', hm, h'⟩ := ih _ e he hd
        exact ⟨evt', List.mem_cons_of_mem _ hm, h'⟩

theorem eventLoop_others (evts : List Event) (k : Nat)
    (h : ∀ evt ∈ evts, ∃ name, evt.Typ = EventType.Other name) :
    eventLoop allowed msg deleteErr evts false k = ⟨[], k, none⟩ := by
  induction evts with
  | nil => rfl
  | cons evt rest ih =>
    obtain ⟨name, hn⟩ := h evt (List.mem_cons_self _ _)
    have hr := ih (fun e he => h e (List.mem_cons_of_mem _ he))
    simp [eventLoop, handleEvent_other allowed msg deleteErr evt k name hn, hr]

theorem eventLoop_rejected (us : List (InteractionCallback × Request)) (k : Nat)
    (h : ∀ p ∈ us, p.1.User.ID ∉ allowed) :
    eventLoop allowed msg deleteErr (us.map (fun p => interactive p.1 p.2)) false k =
      ⟨(us.map (fun p =>
          rejections p.1 p.2 msg (deleteActions p.1).length ++ [Effect.ack p.2])).flatten,
        k, none⟩ := by
  induction us with
  | nil => rfl
  | cons p us ih =>
    have hp := handleEvent_rejected allowed msg deleteErr p.1 p.2 k
      (h p (List.mem_cons_self _ _))
    have hr := ih (fun q hq => h q (List.mem_cons_of_mem _ hq))
    simp [eventLoop, hp, hr]

end EventLoop

/-! ## Lemmas on traces -/

theorem countDeletes_pos_iff (t : List Effect) :
    countDeletes t ≠ 0 ↔ ∃ e ∈ t, e.isDelete = true := by
  rw [countDeletes, ← Nat.pos_iff_ne_zero, List.countP_pos_iff]

theorem countUpdates_eq_zero (t : List Effect) (h : ∀ e ∈ t, e.isUpdate = false) :
    countUpdates t = 0 := by
  rw [countUpdates, List.countP_eq_zero]
  intro e he
  simp [h e he]

theorem rejected_trace_ephemerals (msg : String) (us : List (InteractionCallback × Request))
    (h : ∀ p ∈ us, (deleteActions p.1).length = 1) :
    ((us.map (fun p =>
        rejections p.1 p.2 msg (deleteActions p.1).length ++ [Effect.ack p.2])).flatten).filter
          Effect.isEphemeral =
      us.map (fun p => Effect.postEphemeral p.1.Channel.ID p.1.User.ID msg) := by
  induction us with
  | nil => rfl
  | cons p us ih =>
    have hp := h p (List.mem_cons_self _ _)
    have hr := ih (fun q hq => h q (List.mem_cons_of_mem _ hq))
    simp only [List.map_cons, List.flatten_cons, List.filter_append, hr, hp]
    simp [rejections, rejection, Effect.isEphemeral, List.filter]

theorem rejected_trace_no_delete (msg : String) (us : List (InteractionCallback × Request)) :
    countDeletes ((us.map (fun p =>
        rejections p.1 p.2 msg (deleteActions p.1).length ++ [Effect.ack p.2])).flatten) = 0 := by
  have hrej : ∀ (cb : InteractionCallback) (req : Request) (n : Nat),
      List.countP Effect.isDelete (rejections cb req msg n) = 0 := by
    intro cb req n
    induction n with
    | zero => rfl
    | succ n ih =>
      simp only [rejections, List.countP_append, ih]
      simp [rejection, Effect.isDelete, List.countP_cons]
  induction us with
  | nil => rfl
  | cons p us ih =>
    simp only [countDeletes] at ih
    simp only [countDeletes, List.map_cons, List.flatten_cons, List.countP_append, ih, hrej]
    simp [Effect.isDelete, List.countP_cons]

/-! ## The claims -/

/-- C8: the allow-list check applied by the event loop,
`slices.Contains(allowedUserIDs, callback.User.ID)`, allows actor `a` if and only if `a`
is an element of the allow-list `L` under string equality.  Hence the verdict is the same
for every reordering of `L` and is not changed by duplicate entries, and a delete
interaction from `a` reaches `DeleteMessage` exactly when `a` is in `L`. -/
theorem C8_allow_list_membership (L : List String) (a : String) :
    (slicesContains L a = true ↔ a ∈ L) ∧
    (∀ L' : List String, L.Perm L' → slicesContains L' a = slicesContains L a) ∧
    slicesContains L.dedup a = slicesContains L a ∧
    slicesContains (L ++ L) a = slicesContains L a ∧
    (∀ (msg : String) (deleteErr : Nat → Option String) (channel ts envelope : String)
      (k : Nat),
      countDeletes
        (handleEvent L msg deleteErr (deleteEvent a channel ts envelope) k).effects ≠ 0 ↔
          a ∈ L) := by
  refine ⟨slicesContains_iff L a, ?_, ?_, ?_, ?_⟩
  · intro L' hp
    rw [Bool.eq_iff_iff, slicesContains_iff, slicesContains_iff]
    exact hp.symm.mem_iff
  · rw [Bool.eq_iff_iff, slicesContains_iff, slicesContains_iff]
    exact List.mem_dedup
  · rw [Bool.eq_iff_iff, slicesContains_iff, slicesContains_iff]
    simp
  · intro msg deleteErr channel ts envelope k
    have hne : deleteActions ⟨⟨a⟩, ⟨channel⟩, ⟨ts⟩, ⟨[⟨"delete_message"⟩]⟩⟩ ≠ [] := by
      simp [deleteActions]
    by_cases ha : a ∈ L
    · simp only [ha, iff_true]
      rw [countDeletes_pos_iff]
      have hm := (hba_authorized_mem L msg deleteErr
        ⟨⟨a⟩, ⟨channel⟩, ⟨ts⟩, ⟨[⟨"delete_message"⟩]⟩⟩ ⟨envelope⟩ ha
        [⟨"delete_message"⟩] k hne).1
      refine ⟨Effect.deleteMessage channel ts, ?_, rfl⟩
      have hev := handleEvent_interactive L msg deleteErr
        ⟨⟨a⟩, ⟨channel⟩, ⟨ts⟩, ⟨[⟨"delete_message"⟩]⟩⟩ ⟨envelope⟩ k
      simp only [deleteEvent, interactive] at hev ⊢
      rw [hev]
      split
      · exact hm
      · exact List.mem_append_left _ hm
    · simp only [ha, iff_false, not_not]
      have hev := handleEvent_rejected L msg deleteErr
        ⟨⟨a⟩, ⟨channel⟩, ⟨ts⟩, ⟨[⟨"delete_message"⟩]⟩⟩ ⟨envelope⟩ k ha
      simp only [deleteEvent, interactive] at hev ⊢
      rw [hev]
      simp [countDeletes, deleteActions, rejections, rejection, Effect.isDelete, List.countP_cons]

/-- Witness for C8: `U2` is allowed by `["U1", "U2"]` and equally by the reordered list. -/
theorem C8_allow_list_membership_witness :
    slicesContains ["U2", "U1"] "U2" = slicesContains ["U1", "U2"] "U2" :=
  (C8_allow_list_membership ["U1", "U2"] "U2").2.1 ["U2", "U1"] (List.Perm.swap _ _ _)

/-- C7: when the timer fires and the event goroutine has handled no interactive and no
disconnect event, the run after the post consists of the timeout goroutine alone: one
`UpdateMessage` on the posted handle `(channelID, timestamp)` whose only block is the text
block holding the timeout replacement text (no action block), no `DeleteMessage`, and
exit code 0, whatever error `UpdateMessage` returns. -/
theorem C7_timeout_strips_controls (cfg : Config) (timestamp : String)
    (deleteErr : Nat → Option String) (updateErr : Option String) (events : List Event)
    (h : ∀ evt ∈ events, ∃ name, evt.Typ = EventType.Other name) :
    afterPost cfg timestamp deleteErr updateErr events false =
        ⟨[Effect.sleep (secondsDuration cfg.timeoutSec),
          Effect.updateMessage cfg.channelID timestamp
            [Block.Section ⟨"mrkdwn", cfg.timeoutMessage, false, false⟩],
          Effect.println "Timeout reached, exiting"], Status.exited 0⟩ ∧
      countUpdates (afterPost cfg timestamp deleteErr updateErr events false).effects = 1 ∧
      countDeletes (afterPost cfg timestamp deleteErr updateErr events false).effects = 0 := by
  have hrun : afterPost cfg timestamp deleteErr updateErr events false =
      ⟨[Effect.sleep (secondsDuration cfg.timeoutSec),
        Effect.updateMessage cfg.channelID timestamp
          [Block.Section ⟨"mrkdwn", cfg.timeoutMessage, false, false⟩],
        Effect.println "Timeout reached, exiting"], Status.exited 0⟩ := by
    simp [afterPost, eventLoop_others cfg.allowedUserIDs cfg.unauthorizedMessage deleteErr
      events 0 h, timeoutHandler, timeoutTextBlock]
  refine ⟨hrun, ?_, ?_⟩
  · rw [hrun]
    rfl
  · rw [hrun]
    rfl

/-- Witness for C7: one ignorable `hello` event, then the timer fires; `UpdateMessage`
returns an error and the outcome is unchanged. -/
theorem C7_timeout_strips_controls_witness :
    afterPost sampleConfig "100.1" (fun _ => none) (some "message_not_found")
        [⟨EventType.Other "hello", EventData.Opaque, ⟨"e0"⟩⟩] false =
        ⟨[Effect.sleep (secondsDuration 5),
          Effect.updateMessage "C1" "100.1" [Block.Section ⟨"mrkdwn", "expired", false, false⟩],
          Effect.println "Timeout reached, exiting"], Status.exited 0⟩ :=
  (C7_timeout_strips_controls sampleConfig "100.1" (fun _ => none) (some "message_not_found")
    [⟨EventType.Other "hello", EventData.Opaque, ⟨"e0"⟩⟩] (by simp)).1

/-- C6: let the events handled before the timer fires be delete interactions from actors
outside the allow-list, each carrying one `delete_message` action, followed by one delete
interaction from an allowed actor whose `DeleteMessage` call succeeds.  Then the run after
the post is, for each unauthorized attempt, one ephemeral rejection to that actor (and the
loop keeps running after all of them), then one `DeleteMessage`; the process exits with
code 0 and `UpdateMessage` is never called. -/
theorem C6_unauthorized_then_authorized (cfg : Config) (timestamp : String)
    (deleteErr : Nat → Option String) (updateErr : Option String) (closed : Bool)
    (us : List (InteractionCallback × Request)) (cb : InteractionCallback) (req : Request)
    (hus : ∀ p ∈ us, p.1.User.ID ∉ cfg.allowedUserIDs ∧ (deleteActions p.1).length = 1)
    (hau : cb.User.ID ∈ cfg.allowedUserIDs) (hdel : deleteActions cb ≠ [])
    (hok : deleteErr 0 = none) :
    (afterPost cfg timestamp deleteErr updateErr
        (us.map (fun p => interactive p.1 p.2) ++ [interactive cb req]) closed).status =
        Status.exited 0 ∧
      (afterPost cfg timestamp deleteErr updateErr
        (us.map (fun p => interactive p.1 p.2) ++ [interactive cb req]) closed).effects.filter
          Effect.isEphemeral =
        us.map (fun p =>
          Effect.postEphemeral p.1.Channel.ID p.1.User.ID cfg.unauthorizedMessage) ∧
      (eventLoop cfg.allowedUserIDs cfg.unauthorizedMessage deleteErr
        (us.map (fun p => interactive p.1 p.2)) false 0).exit = none ∧
      countDeletes (afterPost cfg timestamp deleteErr updateErr
        (us.map (fun p => interactive p.1 p.2) ++ [interactive cb req]) closed).effects = 1 ∧
      Effect.deleteMessage cb.Channel.ID cb.Message.Timestamp ∈
        (afterPost cfg timestamp deleteErr updateErr
          (us.map (fun p => interactive p.1 p.2) ++ [interactive cb req]) closed).effects ∧
      countUpdates (afterPost cfg timestamp deleteErr updateErr
        (us.map (fun p => interactive p.1 p.2) ++ [interactive cb req]) closed).effects = 0 := by
  have hrej := eventLoop_rejected cfg.allowedUserIDs cfg.unauthorizedMessage deleteErr us 0
    (fun p hp => (hus p hp).1)
  have hlast := handleEvent_deleted cfg.allowedUserIDs cfg.unauthorizedMessage deleteErr
    cb req 0 hau hdel hok
  have hloop : eventLoop cfg.allowedUserIDs cfg.unauthorizedMessage deleteErr
      (us.map (fun p => interactive p.1 p.2) ++ [interactive cb req]) closed 0 =
      ⟨(us.map (fun p => rejections p.1 p.2 cfg.unauthorizedMessage
          (deleteActions p.1).length ++ [Effect.ack p.2])).flatten ++ deletion cb req,
        1, some 0⟩ := by
    rw [eventLoop_append _ _ _ _ _ _ _ (by rw [hrej]), hrej]
    simp only
    rw [eventLoop_cons_exit _ _ _ _ _ _ _ 0 (by rw [hlast]), hlast]
  have hrun : afterPost cfg timestamp deleteErr updateErr
      (us.map (fun p => interactive p.1 p.2) ++ [interactive cb req]) closed =
      ⟨(us.map (fun p => rejections p.1 p.2 cfg.unauthorizedMessage
          (deleteActions p.1).length ++ [Effect.ack p.2])).flatten ++ deletion cb req,
        Status.exited 0⟩ := by
    simp only [afterPost, hloop]
  have hcount := rejected_trace_no_delete cfg.unauthorizedMessage us
  rw [hrun]
  refine ⟨rfl, ?_, ?_, ?_, ?_, ?_⟩
  · simp only [List.filter_append,
      rejected_trace_ephemerals cfg.unauthorizedMessage us (fun p hp => (hus p hp).2)]
    simp [deletion, Effect.isEphemeral, List.filter]
  · rw [hrej]
  · simp only [countDeletes] at hcount
    simp only [countDeletes, List.countP_append, hcount]
    simp [deletion, Effect.isDelete, List.countP_cons]
  · simp [deletion]
  · rw [← hrun]
    apply countUpdates_eq_zero
    intro e he
    simp only [afterPost, hloop] at he
    have hno := eventLoop_no_update cfg.allowedUserIDs cfg.unauthorizedMessage deleteErr
      (us.map (fun p => interactive p.1 p.2) ++ [interactive cb req]) closed 0
    rw [hloop] at hno
    exact hno e he

/-- Witness for C6: allow-list `["U1"]`, a delete interaction from `U2`, then one from
`U1`: one ephemeral rejection to `U2`, then the message is deleted and the exit code is 0. -/
theorem C6_unauthorized_then_authorized_witness :
    (afterPost sampleConfig "100.1" (fun _ => none) none
        ([deleteEvent "U2" "C1" "100.1" "e1"] ++ [deleteEvent "U1" "C1" "100.1" "e2"])
        false).status = Status.exited 0 ∧
      (afterPost sampleConfig "100.1" (fun _ => none) none
        ([deleteEvent "U2" "C1" "100.1" "e1"] ++ [deleteEvent "U1" "C1" "100.1" "e2"])
        false).effects.filter Effect.isEphemeral =
        [Effect.postEphemeral "C1" "U2" "not allowed"] ∧
      (eventLoop ["U1"] "not allowed" (fun _ => none)
        [deleteEvent "U2" "C1" "100.1" "e1"] false 0).exit = none ∧
      countDeletes (afterPost sampleConfig "100.1" (fun _ => none) none
        ([deleteEvent "U2" "C1" "100.1" "e1"] ++ [deleteEvent "U1" "C1" "100.1" "e2"])
        false).effects = 1 ∧
      Effect.deleteMessage "C1" "100.1" ∈
        (afterPost sampleConfig "100.1" (fun _ => none) none
          ([deleteEvent "U2" "C1" "100.1" "e1"] ++ [deleteEvent "U1" "C1" "100.1" "e2"])
          false).effects ∧
      countUpdates (afterPost sampleConfig "100.1" (fun _ => none) none
        ([deleteEvent "U2" "C1" "100.1" "e1"] ++ [deleteEvent "U1" "C1" "100.1" "e2"])
        false).effects = 0 :=
  C6_unauthorized_then_authorized sampleConfig "100.1" (fun _ => none) none false
    [(⟨⟨"U2"⟩, ⟨"C1"⟩, ⟨"100.1"⟩, ⟨[⟨"delete_message"⟩]⟩⟩, ⟨"e1"⟩)]
    ⟨⟨"U1"⟩, ⟨"C1"⟩, ⟨"100.1"⟩, ⟨[⟨"delete_message"⟩]⟩⟩ ⟨"e2"⟩
    (by decide) (by decide) (by decide) rfl

/-- Counterexample to C5 as stated: after a successful post, a disconnect event ends the
process with exit code 1, and so does the closing of the event channel. -/
theorem C5_counterexample_disconnect_exits_one :
    (main 64 (sampleWorld (fun _ => none)
        [⟨EventType.Disconnect, EventData.Opaque, ⟨"e1"⟩⟩] false)).status = Status.exited 1 ∧
      Effect.postMessage "C1" [textBlock "hello", actionBlock "Delete"] ∈
        (main 64 (sampleWorld (fun _ => none)
          [⟨EventType.Disconnect, EventData.Opaque, ⟨"e1"⟩⟩] false)).effects ∧
      (main 64 (sampleWorld (fun _ => none) [] true)).status = Status.exited 1 := by
  refine ⟨?_, ?_, ?_⟩
  · rfl
  · decide
  · rfl

/-- C5 (amended): after a successful post, an authorized delete whose `DeleteMessage`
succeeds and a timeout end the process with exit code 0, while a disconnect event and the
closing of the event channel end it with exit code 1.  On the disconnect path the only
effect added is the stdout line: neither `UpdateMessage` nor `DeleteMessage` is called. -/
theorem C5_exit_codes (cfg : Config) (timestamp : String) (deleteErr : Nat → Option String)
    (updateErr : Option String) :
    (∀ (pre rest : List Event) (closed : Bool) (cb : InteractionCallback) (req : Request),
      (eventLoop cfg.allowedUserIDs cfg.unauthorizedMessage deleteErr pre false 0).exit = none →
      cb.User.ID ∈ cfg.allowedUserIDs → deleteActions cb ≠ [] →
      deleteErr (eventLoop cfg.allowedUserIDs cfg.unauthorizedMessage deleteErr
        pre false 0).deletes = none →
      (afterPost cfg timestamp deleteErr updateErr (pre ++ interactive cb req :: rest)
        closed).status = Status.exited 0) ∧
    (∀ events : List Event,
      (eventLoop cfg.allowedUserIDs cfg.unauthorizedMessage deleteErr events false 0).exit =
        none →
      (afterPost cfg timestamp deleteErr updateErr events false).status = Status.exited 0) ∧
    (∀ (pre rest : List Event) (closed : Bool) (data : EventData) (req : Request),
      (eventLoop cfg.allowedUserIDs cfg.unauthorizedMessage deleteErr pre false 0).exit = none →
      afterPost cfg timestamp deleteErr updateErr
          (pre ++ ⟨EventType.Disconnect, data, req⟩ :: rest) closed =
        ⟨(eventLoop cfg.allowedUserIDs cfg.unauthorizedMessage deleteErr pre false 0).effects ++
          [Effect.println "Disconnected from Slack, exiting"], Status.exited 1⟩ ∧
      countUpdates (afterPost cfg timestamp deleteErr updateErr
          (pre ++ ⟨EventType.Disconnect, data, req⟩ :: rest) closed).effects = 0) ∧
    (∀ events : List Event,
      (eventLoop cfg.allowedUserIDs cfg.unauthorizedMessage deleteErr events false 0).exit =
        none →
      afterPost cfg timestamp deleteErr updateErr events true =
        ⟨(eventLoop cfg.allowedUserIDs cfg.unauthorizedMessage deleteErr events false 0).effects
          ++ [Effect.println "Event channel closed, exiting"], Status.exited 1⟩ ∧
      countUpdates (afterPost cfg timestamp deleteErr updateErr events true).effects = 0) := by
  refine ⟨?_, ?_, ?_, ?_⟩
  · intro pre rest closed cb req hpre hau hdel hok
    have hlast := handleEvent_deleted cfg.allowedUserIDs cfg.unauthorizedMessage deleteErr
      cb req _ hau hdel hok
    simp only [afterPost]
    rw [eventLoop_append _ _ _ _ _ _ _ hpre]
    simp only
    rw [eventLoop_cons_exit _ _ _ _ _ _ _ 0 (by rw [hlast])]
  · intro events hrun
    simp only [afterPost, hrun, timeoutHandler]
  · intro pre rest closed data req hpre
    have hloop : eventLoop cfg.allowedUserIDs cfg.unauthorizedMessage deleteErr
        (pre ++ ⟨EventType.Disconnect, data, req⟩ :: rest) closed 0 =
        ⟨(eventLoop cfg.allowedUserIDs cfg.unauthorizedMessage deleteErr pre false 0).effects ++
          [Effect.println "Disconnected from Slack, exiting"],
          (eventLoop cfg.allowedUserIDs cfg.unauthorizedMessage deleteErr pre false 0).deletes,
          some 1⟩ := by
      rw [eventLoop_append _ _ _ _ _ _ _ hpre]
      rfl
    have hno := eventLoop_no_update cfg.allowedUserIDs cfg.unauthorizedMessage deleteErr
      (pre ++ ⟨EventType.Disconnect, data, req⟩ :: rest) closed 0
    rw [hloop] at hno
    have hrun : afterPost cfg timestamp deleteErr updateErr
        (pre ++ ⟨EventType.Disconnect, data, req⟩ :: rest) closed =
        ⟨(eventLoop cfg.allowedUserIDs cfg.unauthorizedMessage deleteErr pre false 0).effects ++
          [Effect.println "Disconnected from Slack, exiting"], Status.exited 1⟩ := by
      simp only [afterPost, hloop]
    rw [hrun]
    exact ⟨rfl, countUpdates_eq_zero _ hno⟩
  · intro events hrun
    have hloop : eventLoop cfg.allowedUserIDs cfg.unauthorizedMessage deleteErr events true 0 =
        ⟨(eventLoop cfg.allowedUserIDs cfg.unauthorizedMessage deleteErr events false
            0).effects ++ [Effect.println "Event channel closed, exiting"],
          (eventLoop cfg.allowedUserIDs cfg.unauthorizedMessage deleteErr events false
            0).deletes, some 1⟩ := by
      have happ := eventLoop_append cfg.allowedUserIDs cfg.unauthorizedMessage deleteErr
        events [] true 0 hrun
      rw [List.append_nil] at happ
      rw [happ]
      rfl
    have hno := eventLoop_no_update cfg.allowedUserIDs cfg.unauthorizedMessage deleteErr
      events true 0
    rw [hloop] at hno
    have hafter : afterPost cfg timestamp deleteErr updateErr events true =
        ⟨(eventLoop cfg.allowedUserIDs cfg.unauthorizedMessage deleteErr events false
            0).effects ++ [Effect.println "Event channel closed, exiting"],
          Status.exited 1⟩ := by
      simp only [afterPost, hloop]
    rw [hafter]
    exact ⟨rfl, countUpdates_eq_zero _ hno⟩

/-- Witness for C5: a disconnect event right after the post: exit code 1, one stdout line,
no Slack call. -/
theorem C5_exit_codes_witness :
    afterPost sampleConfig "100.1" (fun _ => none) none
        ([] ++ [⟨EventType.Disconnect, EventData.Opaque, ⟨"e1"⟩⟩]) false =
      ⟨[] ++ [Effect.println "Disconnected from Slack, exiting"], Status.exited 1⟩ :=
  ((C5_exit_codes sampleConfig "100.1" (fun _ => none) none).2.2.1 [] [] false
    EventData.Opaque ⟨"e1"⟩ rfl).1

/-- Counterexample to C4 as stated: the posted handle is `("C1", "100.1")`; a delete
interaction by the allowed actor `U1` on another message `("C2", "200.2")` is not
ignored: `DeleteMessage` is called on `("C2", "200.2")` and the process exits with code 0. -/
theorem C4_counterexample_other_target_deleted :
    afterPost sampleConfig "100.1" (fun _ => none) none
        [deleteEvent "U1" "C2" "200.2" "e1"] false =
      ⟨[Effect.deleteMessage "C2" "200.2", Effect.ack ⟨"e1"⟩,
        Effect.println "Message deleted successfully"], Status.exited 0⟩ ∧
    ("C2", "200.2") ≠ (sampleConfig.channelID, "100.1") := by
  decide

/-- C4 (amended): the event loop does not compare the target of an interaction with the
posted handle.  Every `DeleteMessage` call of a run after the post is made on the channel
ID and message timestamp carried by a received interactive event whose actor is in the
allow-list; a delete interaction from an allowed actor, whatever its target, deletes that
target and ends the run with exit code 0 when the call succeeds; a delete interaction from
any other actor is answered with ephemeral notices on the channel of the event and leaves
the loop running. -/
theorem C4_delete_targets_event_message (cfg : Config) (timestamp : String)
    (deleteErr : Nat → Option String) (updateErr : Option String) :
    (∀ (events : List Event) (closed : Bool) (e : Effect),
      e ∈ (afterPost cfg timestamp deleteErr updateErr events closed).effects →
      e.isDelete = true →
      ∃ evt ∈ events, ∃ cb, evt.Typ = EventType.Interactive ∧
        evt.Data = EventData.Callback cb ∧ cb.User.ID ∈ cfg.allowedUserIDs ∧
        e = Effect.deleteMessage cb.Channel.ID cb.Message.Timestamp) ∧
    (∀ (cb : InteractionCallback) (req : Request) (closed : Bool),
      cb.User.ID ∈ cfg.allowedUserIDs → deleteActions cb ≠ [] → deleteErr 0 = none →
      afterPost cfg timestamp deleteErr updateErr [interactive cb req] closed =
        ⟨[Effect.deleteMessage cb.Channel.ID cb.Message.Timestamp, Effect.ack req,
          Effect.println "Message deleted successfully"], Status.exited 0⟩) ∧
    (∀ (cb : InteractionCallback) (req : Request) (k : Nat),
      cb.User.ID ∉ cfg.allowedUserIDs →
      handleEvent cfg.allowedUserIDs cfg.unauthorizedMessage deleteErr (interactive cb req) k =
        ⟨rejections cb req cfg.unauthorizedMessage (deleteActions cb).length ++
          [Effect.ack req], k, none⟩) := by
  refine ⟨?_, ?_, ?_⟩
  · intro events closed e he hd
    have htarget := eventLoop_delete_target cfg.allowedUserIDs cfg.unauthorizedMessage
      deleteErr events closed 0
    simp only [afterPost] at he
    split at he
    · exact htarget e he hd
    · simp only [List.mem_append] at he
      rcases he with he | he
      · exact htarget e he hd
      · simp only [timeoutHandler, List.mem_cons, List.mem_singleton, List.not_mem_nil,
          or_false] at he
        rcases he with rfl | rfl | rfl <;> simp [Effect.isDelete] at hd
  · intro cb req closed hau hdel hok
    have hlast := handleEvent_deleted cfg.allowedUserIDs cfg.unauthorizedMessage deleteErr
      cb req 0 hau hdel hok
    simp only [afterPost]
    rw [eventLoop_cons_exit _ _ _ _ _ _ _ 0 (by rw [hlast]), hlast]
    rfl
  · intro cb req k hun
    exact handleEvent_rejected cfg.allowedUserIDs cfg.unauthorizedMessage deleteErr cb req k hun

/-- Witness for C4: the only `DeleteMessage` call made when `U1` presses delete on
`("C2", "200.2")` is on that event's message. -/
theorem C4_delete_targets_event_message_witness :
    ∃ evt ∈ [deleteEvent "U1" "C2" "200.2" "e1"], ∃ cb, evt.Typ = EventType.Interactive ∧
      evt.Data = EventData.Callback cb ∧ cb.User.ID ∈ sampleConfig.allowedUserIDs ∧
      Effect.deleteMessage "C2" "200.2" =
        Effect.deleteMessage cb.Channel.ID cb.Message.Timestamp :=
  (C4_delete_targets_event_message sampleConfig "100.1" (fun _ => none) none).1
    [deleteEvent "U1" "C2" "200.2" "e1"] false (Effect.deleteMessage "C2" "200.2")
    (by decide) rfl

/-- Counterexample to C3 as stated: an event of another type (`hello`) and an interactive
event whose payload is not an interaction callback are consumed without any `Ack`. -/
theorem C3_counterexample_unacknowledged_events :
    countAcks (handleEvent ["U1"] "not allowed" (fun _ => none)
        ⟨EventType.Other "hello", EventData.Opaque, ⟨"e1"⟩⟩ 0).effects = 0 ∧
      (handleEvent ["U1"] "not allowed" (fun _ => none)
        ⟨EventType.Other "hello", EventData.Opaque, ⟨"e1"⟩⟩ 0).exit = none ∧
      countAcks (handleEvent ["U1"] "not allowed" (fun _ => none)
        ⟨EventType.Interactive, EventData.Opaque, ⟨"e2"⟩⟩ 0).effects = 0 ∧
      (handleEvent ["U1"] "not allowed" (fun _ => none)
        ⟨EventType.Interactive, EventData.Opaque, ⟨"e2"⟩⟩ 0).exit = none := by
  decide

/-- C3 (amended): an interactive event whose payload is an interaction callback without a
delete action receives exactly one `Ack`, and so does a delete interaction from an allowed
actor whose first `DeleteMessage` call succeeds; an interactive event whose payload is not
an interaction callback and an event of any type other than interactive and disconnect
receive no `Ack`. -/
theorem C3_ack_counts (allowed : List String) (msg : String) (deleteErr : Nat → Option String)
    (evt : Event) (k : Nat) :
    (∀ cb, evt.Typ = EventType.Interactive → evt.Data = EventData.Callback cb →
      deleteActions cb = [] →
      countAcks (handleEvent allowed msg deleteErr evt k).effects = 1) ∧
    (∀ cb, evt.Typ = EventType.Interactive → evt.Data = EventData.Callback cb →
      cb.User.ID ∈ allowed → deleteActions cb ≠ [] → deleteErr k = none →
      countAcks (handleEvent allowed msg deleteErr evt k).effects = 1) ∧
    (evt.Typ = EventType.Interactive → evt.Data = EventData.Opaque →
      countAcks (handleEvent allowed msg deleteErr evt k).effects = 0) ∧
    (∀ name, evt.Typ = EventType.Other name →
      countAcks (handleEvent allowed msg deleteErr evt k).effects = 0) := by
  obtain ⟨typ, data, req⟩ := evt
  refine ⟨?_, ?_, ?_, ?_⟩
  · intro cb ht hd hnone
    simp only at ht hd
    subst ht hd
    have h := handleEvent_no_delete_action allowed msg deleteErr cb req k hnone
    simp only [interactive] at h
    rw [h]
    rfl
  · intro cb ht hd hau hdel hok
    simp only at ht hd
    subst ht hd
    have h := handleEvent_deleted allowed msg deleteErr cb req k hau hdel hok
    simp only [interactive] at h
    rw [h]
    rfl
  · intro ht hd
    simp only at ht hd
    subst ht hd
    rfl
  · intro name ht
    simp only at ht
    subst ht
    rfl

/-- Witness for C3: a delete interaction from the allowed actor `U1`, the call succeeding,
is acknowledged once. -/
theorem C3_ack_counts_witness :
    countAcks (handleEvent ["U1"] "not allowed" (fun _ => none)
      (deleteEvent "U1" "C1" "100.1" "e1") 0).effects = 1 :=
  (C3_ack_counts ["U1"] "not allowed" (fun _ => none) (deleteEvent "U1" "C1" "100.1" "e1")
    0).2.1 ⟨⟨"U1"⟩, ⟨"C1"⟩, ⟨"100.1"⟩, ⟨[⟨"delete_message"⟩]⟩⟩ rfl rfl (by decide) (by decide) rfl

/-- Counterexample to C2 as stated: the allowed actor `U1` presses delete and `DeleteMessage`
returns an error: the error is logged, the event loop does not stop (`exit = none`) and
no exit code is produced by the event. -/
theorem C2_counterexample_failed_delete_continues :
    handleEvent ["U1"] "not allowed" (fun _ => some "message_not_found")
        (deleteEvent "U1" "C1" "100.1" "e1") 0 =
      ⟨[Effect.deleteMessage "C1" "100.1", Effect.ack ⟨"e1"⟩,
        Effect.logPrintf "Failed to delete message: %v" "message_not_found",
        Effect.ack ⟨"e1"⟩], 1, none⟩ ∧
    (eventLoop ["U1"] "not allowed" (fun _ => some "message_not_found")
        [deleteEvent "U1" "C1" "100.1" "e1"] false 0).exit = none := by
  decide

/-- C2 (amended): for an interaction event carrying a `delete_message` action from an
actor in the allow-list, handling the event calls `DeleteMessage` on the message of the
event and acknowledges the event.  The loop stops with exit code 0 exactly when one of the
`DeleteMessage` calls made for the event returns no error; if the first call returns no
error the handling is that call, the acknowledgement and the success line.  A call that
returns an error is logged, and when every call returns an error the event produces no
exit. -/
theorem C2_authorized_delete (allowed : List String) (msg : String)
    (deleteErr : Nat → Option String) (cb : InteractionCallback) (req : Request) (k : Nat)
    (hau : cb.User.ID ∈ allowed) (hdel : deleteActions cb ≠ []) :
    Effect.deleteMessage cb.Channel.ID cb.Message.Timestamp ∈
        (handleEvent allowed msg deleteErr (interactive cb req) k).effects ∧
      Effect.ack req ∈ (handleEvent allowed msg deleteErr (interactive cb req) k).effects ∧
      ((handleEvent allowed msg deleteErr (interactive cb req) k).exit = some 0 ↔
        ∃ i, i < (deleteActions cb).length ∧ deleteErr (k + i) = none) ∧
      (deleteErr k = none →
        handleEvent allowed msg deleteErr (interactive cb req) k =
          ⟨[Effect.deleteMessage cb.Channel.ID cb.Message.Timestamp, Effect.ack req,
            Effect.println "Message deleted successfully"], k + 1, some 0⟩) ∧
      (∀ err, deleteErr k = some err →
        Effect.logPrintf "Failed to delete message: %v" err ∈
          (handleEvent allowed msg deleteErr (interactive cb req) k).effects) ∧
      ((∀ i, deleteErr i ≠ none) →
        (handleEvent allowed msg deleteErr (interactive cb req) k).exit = none) := by
  have hmem := hba_authorized_mem allowed msg deleteErr cb req hau
    cb.ActionCallback.BlockActions k hdel
  have hiff := hba_exit_iff allowed msg deleteErr cb req hau cb.ActionCallback.BlockActions k
  have hzero := hba_exit_zero allowed msg deleteErr cb req cb.ActionCallback.BlockActions k
  have hev := handleEvent_interactive allowed msg deleteErr cb req k
  have hexit : (handleEvent allowed msg deleteErr (interactive cb req) k).exit =
      (handleBlockActions allowed msg deleteErr cb req cb.ActionCallback.BlockActions k).exit := by
    rw [hev]
    split
    · rename_i code hcode
      simp [hcode]
    · rename_i hcode
      simp [hcode]
  have hsub : ∀ e ∈ (handleBlockActions allowed msg deleteErr cb req
      cb.ActionCallback.BlockActions k).effects,
      e ∈ (handleEvent allowed msg deleteErr (interactive cb req) k).effects := by
    intro e he
    rw [hev]
    split
    · exact he
    · exact List.mem_append_left _ he
  refine ⟨hsub _ hmem.1, hsub _ hmem.2.1, ?_, ?_, ?_, ?_⟩
  · rw [hexit]
    exact hiff
  · intro hok
    exact handleEvent_deleted allowed msg deleteErr cb req k hau hdel hok
  · intro err herr
    exact hsub _ (hmem.2.2 err herr)
  · intro hall
    rw [hexit]
    cases hx : (handleBlockActions allowed msg deleteErr cb req
        cb.ActionCallback.BlockActions k).exit with
    | none => rfl
    | some code =>
      have hc := hzero code hx
      subst hc
      obtain ⟨i, _, hi⟩ := hiff.1 hx
      exact absurd hi (hall _)

/-- Witness for C2: the allowed actor `U1` presses delete and the call succeeds: delete,
acknowledge, success line, exit code 0. -/
theorem C2_authorized_delete_witness :
    handleEvent ["U1"] "not allowed" (fun _ => none)
        (interactive ⟨⟨"U1"⟩, ⟨"C1"⟩, ⟨"100.1"⟩, ⟨[⟨"delete_message"⟩]⟩⟩ ⟨"e1"⟩) 0 =
      ⟨[Effect.deleteMessage "C1" "100.1", Effect.ack ⟨"e1"⟩,
        Effect.println "Message deleted successfully"], 0 + 1, some 0⟩ :=
  (C2_authorized_delete ["U1"] "not allowed" (fun _ => none)
    ⟨⟨"U1"⟩, ⟨"C1"⟩, ⟨"100.1"⟩, ⟨[⟨"delete_message"⟩]⟩⟩ ⟨"e1"⟩ 0 (by decide) (by decide)).2.2.2.1
    rfl

/-! ## The random delay -/

theorem wrapInt_of_inRange (bits : Nat) (x : Int) (hb : 0 < bits)
    (hlo : -(2 ^ (bits - 1)) ≤ x) (hhi : x < 2 ^ (bits - 1)) : wrapInt bits x = x := by
  obtain ⟨n, rfl⟩ : ∃ n, bits = n + 1 := ⟨bits - 1, by omega⟩
  simp only [Nat.add_sub_cancel] at hlo hhi
  have hpow : (2 : Int) ^ (n + 1) = 2 * 2 ^ n := by rw [pow_succ]; ring
  simp only [wrapInt, Nat.add_sub_cancel, hpow]
  rw [Int.emod_eq_of_lt (by omega) (by omega)]
  omega

/-- Counterexample to C9 as stated: with 64-bit `int`, `MAX_DELAY_SECONDS` set to the
largest `int` is accepted by configuration loading, `maxDelaySec + 1` wraps around to the
smallest `int`, and `rand.IntN` panics. -/
theorem C9_counterexample_max_int_panics :
    (0 : Int) ≤ 9223372036854775807 ∧
      Atoi 64 "9223372036854775807" = some 9223372036854775807 ∧
      wrapInt 64 (9223372036854775807 + 1) = -9223372036854775808 ∧
      computeDelay 64 9223372036854775807 0 = none ∧
      main 64 ⟨false, sampleEnv "5" "9223372036854775807", 0, .ok "100.1", fun _ => none,
        none, [], false⟩ = ⟨[], Status.panicked "invalid argument to IntN"⟩ := by
  refine ⟨by decide, by decide, by decide, by decide, by rfl⟩

/-- C9 (amended): for every `maxSeconds` with `0 ≤ maxSeconds` that is smaller than the
largest `int` of `intSize` bits, and every output of the random source, the delay
computation `rand.IntN(maxDelaySec + 1)` does not panic and yields `d` with
`0 ≤ d ≤ maxSeconds`; when `maxSeconds = 0` the value is `0`. -/
theorem C9_delay_within_bound (intSize : Nat) (maxSeconds : Int) (draw : Nat)
    (h0 : 0 ≤ maxSeconds) (hmax : maxSeconds < 2 ^ (intSize - 1) - 1) :
    ∃ d, computeDelay intSize maxSeconds draw = some d ∧ 0 ≤ d ∧ d ≤ maxSeconds ∧
      (maxSeconds = 0 → d = 0) := by
  have hsize : 0 < intSize := by
    rcases Nat.eq_zero_or_pos intSize with h | h
    · subst h
      simp at hmax
      omega
    · exact h
  have hpos : (0 : Int) < 2 ^ (intSize - 1) := by positivity
  have hwrap : wrapInt intSize (maxSeconds + 1) = maxSeconds + 1 :=
    wrapInt_of_inRange intSize (maxSeconds + 1) hsize (by omega) (by omega)
  have hn : ¬ (maxSeconds + 1 ≤ 0) := by omega
  refine ⟨(draw : Int) % (maxSeconds + 1), ?_, ?_, ?_, ?_⟩
  · simp only [computeDelay, IntN, hwrap, hn, if_false]
  · exact Int.emod_nonneg _ (by omega)
  · have := Int.emod_lt_of_pos (draw : Int) (show (0 : Int) < maxSeconds + 1 by omega)
    omega
  · intro hz
    subst hz
    simp

/-- Witness for C9: 64-bit `int`, bound 10, raw draw 25: the delay is 3 seconds. -/
theorem C9_delay_within_bound_witness :
    ∃ d, computeDelay 64 10 25 = some d ∧ 0 ≤ d ∧ d ≤ 10 ∧ ((10 : Int) = 0 → d = 0) :=
  C9_delay_within_bound 64 10 25 (by decide) (by decide)

/-! ## Configuration loading -/

theorem loadConfig_ok_iff (intSize : Nat) (getenv : String → String) :
    (∃ cfg, loadConfig intSize getenv = .ok cfg) ↔ configAccepted intSize getenv := by
  unfold loadConfig configAccepted
  by_cases h1 : getenv "SLACK_BOT_TOKEN" = ""
  · simp [h1]
  by_cases h2 : getenv "SLACK_APP_TOKEN" = ""
  · simp [h1, h2]
  by_cases h3 : getenv "SLACK_CHANNEL_ID" = ""
  · simp [h1, h2, h3]
  by_cases h4 : getenv "MESSAGE" = ""
  · simp [h1, h2, h3, h4]
  by_cases h5 : getenv "TIMEOUT_SECONDS" = ""
  · simp [h1, h2, h3, h4, h5]
  cases h6 : Atoi intSize (getenv "TIMEOUT_SECONDS") with
  | none => simp [h1, h2, h3, h4, h5, h6]
  | some t =>
    by_cases h7 : getenv "MAX_DELAY_SECONDS" = ""
    · simp [h1, h2, h3, h4, h5, h6, h7]
    cases h8 : Atoi intSize (getenv "MAX_DELAY_SECONDS") with
    | none => simp [h1, h2, h3, h4, h5, h6, h7, h8]
    | some d =>
      by_cases h9 : getenv "DELETE_BUTTON_LABEL" = ""
      · simp [h1, h2, h3, h4, h5, h6, h7, h8, h9]
      by_cases h10 : getenv "TIMEOUT_MESSAGE" = ""
      · simp [h1, h2, h3, h4, h5, h6, h7, h8, h9, h10]
      by_cases h11 : getenv "ALLOWED_USER_IDS" = ""
      · simp [h1, h2, h3, h4, h5, h6, h7, h8, h9, h10, h11]
      by_cases h12 : getenv "UNAUTHORIZED_MESSAGE" = ""
      · simp [h1, h2, h3, h4, h5, h6, h7, h8, h9, h10, h11, h12]
      simp [h1, h2, h3, h4, h5, h6, h7, h8, h9, h10, h11, h12]

theorem loadConfig_values (intSize : Nat) (getenv : String → String) (cfg : Config)
    (h : loadConfig intSize getenv = .ok cfg) :
    Atoi intSize (getenv "TIMEOUT_SECONDS") = some cfg.timeoutSec ∧
      Atoi intSize (getenv "MAX_DELAY_SECONDS") = some cfg.maxDelaySec := by
  unfold loadConfig at h
  by_cases h1 : getenv "SLACK_BOT_TOKEN" = ""
  · simp [h1] at h
  by_cases h2 : getenv "SLACK_APP_TOKEN" = ""
  · simp [h1, h2] at h
  by_cases h3 : getenv "SLACK_CHANNEL_ID" = ""
  · simp [h1, h2, h3] at h
  by_cases h4 : getenv "MESSAGE" = ""
  · simp [h1, h2, h3, h4] at h
  by_cases h5 : getenv "TIMEOUT_SECONDS" = ""
  · simp [h1, h2, h3, h4, h5] at h
  cases h6 : Atoi intSize (getenv "TIMEOUT_SECONDS") with
  | none => simp [h1, h2, h3, h4, h5, h6] at h
  | some t =>
    by_cases h7 : getenv "MAX_DELAY_SECONDS" = ""
    · simp [h1, h2, h3, h4, h5, h6, h7] at h
    cases h8 : Atoi intSize (getenv "MAX_DELAY_SECONDS") with
    | none => simp [h1, h2, h3, h4, h5, h6, h7, h8] at h
    | some d =>
      by_cases h9 : getenv "DELETE_BUTTON_LABEL" = ""
      · simp [h1, h2, h3, h4, h5, h6, h7, h8, h9] at h
      by_cases h10 : getenv "TIMEOUT_MESSAGE" = ""
      · simp [h1, h2, h3, h4, h5, h6, h7, h8, h9, h10] at h
      by_cases h11 : getenv "ALLOWED_USER_IDS" = ""
      · simp [h1, h2, h3, h4, h5, h6, h7, h8, h9, h10, h11] at h
      by_cases h12 : getenv "UNAUTHORIZED_MESSAGE" = ""
      · simp [h1, h2, h3, h4, h5, h6, h7, h8, h9, h10, h11, h12] at h
      simp [h1, h2, h3, h4, h5, h6, h7, h8, h9, h10, h11, h12] at h
      subst h
      exact ⟨rfl, rfl⟩

theorem loadConfig_error_isFatal (intSize : Nat) (getenv : String → String) (fatal : Effect)
    (h : loadConfig intSize getenv = .error fatal) : fatal.isFatal = true := by
  unfold loadConfig at h
  by_cases h1 : getenv "SLACK_BOT_TOKEN" = ""
  · simp [h1] at h; subst h; rfl
  by_cases h2 : getenv "SLACK_APP_TOKEN" = ""
  · simp [h1, h2] at h; subst h; rfl
  by_cases h3 : getenv "SLACK_CHANNEL_ID" = ""
  · simp [h1, h2, h3] at h; subst h; rfl
  by_cases h4 : getenv "MESSAGE" = ""
  · simp [h1, h2, h3, h4] at h; subst h; rfl
  by_cases h5 : getenv "TIMEOUT_SECONDS" = ""
  · simp [h1, h2, h3, h4, h5] at h; subst h; rfl
  cases h6 : Atoi intSize (getenv "TIMEOUT_SECONDS") with
  | none => simp [h1, h2, h3, h4, h5, h6] at h; subst h; rfl
  | some t =>
    by_cases h7 : getenv "MAX_DELAY_SECONDS" = ""
    · simp [h1, h2, h3, h4, h5, h6, h7] at h; subst h; rfl
    cases h8 : Atoi intSize (getenv "MAX_DELAY_SECONDS") with
    | none => simp [h1, h2, h3, h4, h5, h6, h7, h8] at h; subst h; rfl
    | some d =>
      by_cases h9 : getenv "DELETE_BUTTON_LABEL" = ""
      · simp [h1, h2, h3, h4, h5, h6, h7, h8, h9] at h; subst h; rfl
      by_cases h10 : getenv "TIMEOUT_MESSAGE" = ""
      · simp [h1, h2, h3, h4, h5, h6, h7, h8, h9, h10] at h; subst h; rfl
      by_cases h11 : getenv "ALLOWED_USER_IDS" = ""
      · simp [h1, h2, h3, h4, h5, h6, h7, h8, h9, h10, h11] at h; subst h; rfl
      by_cases h12 : getenv "UNAUTHORIZED_MESSAGE" = ""
      · simp [h1, h2, h3, h4, h5, h6, h7, h8, h9, h10, h11, h12] at h; subst h; rfl
      simp [h1, h2, h3, h4, h5, h6, h7, h8, h9, h10, h11, h12] at h

/-- Counterexample to C10 as stated: with every variable set and `TIMEOUT_SECONDS=-5`,
configuration loading succeeds with `timeoutSec = -5`, and the message is posted. -/
theorem C10_counterexample_negative_timeout_accepted :
    loadConfig 64 (sampleEnv "-5" "0") =
      .ok ⟨"xoxb-1", "xapp-1", "C1", "hello", -5, 0, "Delete", "expired", ["U1"],
        "not allowed"⟩ ∧
    Effect.postMessage "C1" [textBlock "hello", actionBlock "Delete"] ∈
      (main 64 ⟨false, sampleEnv "-5" "0", 0, .ok "100.1", fun _ => none, none, [],
        false⟩).effects := by
  refine ⟨by rfl, by decide⟩

/-- C10 (amended): configuration loading succeeds if and only if the ten settings are
non-empty and the timeout and maximum delay are accepted by `strconv.Atoi` (negative
integers included); the loaded values are the parsed ones.  Otherwise the program fails
fast: it makes one `log.Fatal`/`log.Fatalf` call and exits with code 1, and no sleep and
no post precede it. -/
theorem C10_config_loading (intSize : Nat) (w : World) :
    ((∃ cfg, loadConfig intSize w.getenv = .ok cfg) ↔ configAccepted intSize w.getenv) ∧
    (∀ cfg, loadConfig intSize w.getenv = .ok cfg →
      Atoi intSize (w.getenv "TIMEOUT_SECONDS") = some cfg.timeoutSec ∧
      Atoi intSize (w.getenv "MAX_DELAY_SECONDS") = some cfg.maxDelaySec) ∧
    (∀ fatal, loadConfig intSize w.getenv = .error fatal →
      fatal.isFatal = true ∧
      main intSize w =
        ⟨(if w.dotenvErr then
            [Effect.logPrintln "No .env file found, using environment variables"]
          else []) ++ [fatal], Status.exited 1⟩ ∧
      ∀ e ∈ (main intSize w).effects, e.isSleepOrPost = false) := by
  refine ⟨loadConfig_ok_iff intSize w.getenv, loadConfig_values intSize w.getenv, ?_⟩
  intro fatal hf
  have hfatal := loadConfig_error_isFatal intSize w.getenv fatal hf
  have hmain : main intSize w =
      ⟨(if w.dotenvErr then
          [Effect.logPrintln "No .env file found, using environment variables"]
        else []) ++ [fatal], Status.exited 1⟩ := by
    simp only [main, hf]
  refine ⟨hfatal, hmain, ?_⟩
  rw [hmain]
  intro e he
  simp only [List.mem_append, List.mem_singleton] at he
  rcases he with he | rfl
  · split at he
    · simp only [List.mem_singleton] at he
      subst he
      rfl
    · simp at he
  · cases e <;> simp_all [Effect.isFatal, Effect.isSleepOrPost]

/-- Witness for C10: `TIMEOUT_SECONDS=abc` is rejected by `Atoi`: one `log.Fatalf` call,
exit code 1, nothing else. -/
theorem C10_config_loading_witness :
    (Effect.logFatalf "Invalid TIMEOUT_SECONDS: %v" "abc").isFatal = true ∧
      main 64 ⟨false, sampleEnv "abc" "0", 0, .ok "100.1", fun _ => none, none, [], false⟩ =
        ⟨(if false then
            [Effect.logPrintln "No .env file found, using environment variables"]
          else []) ++ [Effect.logFatalf "Invalid TIMEOUT_SECONDS: %v" "abc"],
          Status.exited 1⟩ :=
  ⟨((C10_config_loading 64 ⟨false, sampleEnv "abc" "0", 0, .ok "100.1", fun _ => none, none,
      [], false⟩).2.2 (Effect.logFatalf "Invalid TIMEOUT_SECONDS: %v" "abc") (by rfl)).1,
    ((C10_config_loading 64 ⟨false, sampleEnv "abc" "0", 0, .ok "100.1", fun _ => none, none,
      [], false⟩).2.2 (Effect.logFatalf "Invalid TIMEOUT_SECONDS: %v" "abc") (by rfl)).2.1⟩

/-! ## The two goroutines under every schedule -/

theorem interleave_countP_le (p : Effect → Bool) (sched : List Turn)
    (ts es : List Effect) (eE : Option Nat) :
    List.countP p (interleave sched ts es eE).1 ≤ List.countP p ts + List.countP p es := by
  induction sched generalizing ts es with
  | nil => simp [interleave]
  | cons turn sched ih =>
    cases turn with
    | timer =>
      cases ts with
      | nil => simp [interleave]
      | cons t ts =>
        have h := ih ts es
        simp only [interleave, List.countP_cons]
        omega
    | events =>
      cases es with
      | nil =>
        cases eE with
        | none =>
          simp only [interleave]
          exact ih ts []
        | some code => simp [interleave]
      | cons e es =>
        have h := ih ts es
        simp only [interleave, List.countP_cons]
        omega

theorem interleave_exit (sched : List Turn)
    (ts es : List Effect) (eE : Option Nat) (code : Nat)
    (h : (interleave sched ts es eE).2 = some code) :
    (code = 0 ∧ ∀ p : Effect → Bool,
        List.countP p ts ≤ List.countP p (interleave sched ts es eE).1) ∨
      (eE = some code ∧ ∀ p : Effect → Bool,
        List.countP p es ≤ List.countP p (interleave sched ts es eE).1) := by
  induction sched generalizing ts es with
  | nil => simp [interleave] at h
  | cons turn sched ih =>
    cases turn with
    | timer =>
      cases ts with
      | nil =>
        simp only [interleave, Option.some.injEq] at h
        exact Or.inl ⟨h.symm, by simp⟩
      | cons t ts =>
        simp only [interleave] at h
        have h' := ih ts es h
        simp only [interleave, List.countP_cons]
        rcases h' with ⟨h0, hle⟩ | ⟨h1, hle⟩
        · exact Or.inl ⟨h0, fun p => by have := hle p; omega⟩
        · exact Or.inr ⟨h1, fun p => by have := hle p; omega⟩
    | events =>
      cases es with
      | nil =>
        cases eE with
        | none =>
          simp only [interleave] at h ⊢
          exact ih ts [] h
        | some c =>
          simp only [interleave, Option.some.injEq] at h
          subst h
          exact Or.inr ⟨rfl, by simp⟩
      | cons e es =>
        simp only [interleave] at h
        have h' := ih ts es h
        simp only [interleave, List.countP_cons]
        rcases h' with ⟨h0, hle⟩ | ⟨h1, hle⟩
        · exact Or.inl ⟨h0, fun p => by have := hle p; omega⟩
        · exact Or.inr ⟨h1, fun p => by have := hle p; omega⟩

theorem interleave_mem (sched : List Turn) (ts es : List Effect) (eE : Option Nat) :
    ∀ e ∈ (interleave sched ts es eE).1, e ∈ ts ∨ e ∈ es := by
  induction sched generalizing ts es with
  | nil => simp [interleave]
  | cons turn sched ih =>
    cases turn with
    | timer =>
      cases ts with
      | nil => simp [interleave]
      | cons t ts =>
        intro e he
        simp only [interleave, List.mem_cons] at he
        rcases he with rfl | he
        · exact Or.inl (List.mem_cons_self _ _)
        · rcases ih ts es e he with h | h
          · exact Or.inl (List.mem_cons_of_mem _ h)
          · exact Or.inr h
    | events =>
      cases es with
      | nil =>
        cases eE with
        | none =>
          simp only [interleave]
          exact ih ts []
        | some code => simp [interleave]
      | cons x es =>
        intro e he
        simp only [interleave, List.mem_cons] at he
        rcases he with rfl | he
        · exact Or.inr (List.mem_cons_self _ _)
        · rcases ih ts es e he with h | h
          · exact Or.inl h
          · exact Or.inr (List.mem_cons_of_mem _ h)

theorem hba_exit_has_delete (allowed : List String) (msg : String)
    (deleteErr : Nat → Option String) (cb : InteractionCallback) (req : Request)
    (acts : List BlockAction) (k : Nat) (code : Nat)
    (h : (handleBlockActions allowed msg deleteErr cb req acts k).exit = some code) :
    ∃ e ∈ (handleBlockActions allowed msg deleteErr cb req acts k).effects,
      e.isDelete = true := by
  induction acts generalizing k with
  | nil => simp [handleBlockActions] at h
  | cons a rest ih =>
    simp only [handleBlockActions] at h ⊢
    split
    · rename_i ha
      simp only [ha, if_true] at h
      split
      · rename_i hc
        simp only [hc, if_true] at h
        obtain ⟨e, he, hd⟩ := ih _ h
        exact ⟨e, List.mem_append_right _ he, hd⟩
      · exact ⟨Effect.deleteMessage cb.Channel.ID cb.Message.Timestamp, by
          split <;> simp, rfl⟩
    · rename_i ha
      simp only [ha, if_false] at h
      exact ih _ h

theorem handleEvent_exit_zero_has_delete (allowed : List String) (msg : String)
    (deleteErr : Nat → Option String) (evt : Event) (k : Nat)
    (h : (handleEvent allowed msg deleteErr evt k).exit = some 0) :
    ∃ e ∈ (handleEvent allowed msg deleteErr evt k).effects, e.isDelete = true := by
  obtain ⟨typ, data, req⟩ := evt
  cases typ with
  | Disconnect => simp [handleEvent] at h
  | Other name => simp [handleEvent] at h
  | Interactive =>
    cases data with
    | Opaque => simp [handleEvent] at h
    | Callback cb =>
      have hev := handleEvent_interactive allowed msg deleteErr cb req k
      simp only [interactive] at hev
      rw [hev] at h ⊢
      cases hx : (handleBlockActions allowed msg deleteErr cb req
          cb.ActionCallback.BlockActions k).exit with
      | none => simp [hx] at h
      | some code =>
        simp only [hx]
        exact hba_exit_has_delete allowed msg deleteErr cb req _ k code hx

theorem eventLoop_exit_zero_has_delete (allowed : List String) (msg : String)
    (deleteErr : Nat → Option String) (evts : List Event) (closed : Bool) (k : Nat)
    (h : (eventLoop allowed msg deleteErr evts closed k).exit = some 0) :
    ∃ e ∈ (eventLoop allowed msg deleteErr evts closed k).effects, e.isDelete = true := by
  induction evts generalizing k with
  | nil =>
    simp only [eventLoop] at h
    split at h <;> simp at h
  | cons evt rest ih =>
    cases hx : (handleEvent allowed msg deleteErr evt k).exit with
    | some code =>
      rw [eventLoop_cons_exit allowed msg deleteErr evt rest closed k code hx] at h ⊢
      simp only [Option.some.injEq] at h
      subst h
      exact handleEvent_exit_zero_has_delete allowed msg deleteErr evt k hx
    | none =>
      rw [eventLoop_cons_continue allowed msg deleteErr evt rest closed k hx] at h ⊢
      simp only at h
      obtain ⟨e, he, hd⟩ := ih _ h
      exact ⟨e, List.mem_append_right _ he, hd⟩

theorem interleave_timer_only (n : Nat) (ts : List Effect) (h : ts.length < n) :
    interleave (List.replicate n Turn.timer) ts [] none = (ts, some 0) := by
  induction ts generalizing n with
  | nil =>
    obtain ⟨m, rfl⟩ : ∃ m, n = m + 1 := ⟨n - 1, by simp at h; omega⟩
    simp [List.replicate_succ, interleave]
  | cons t ts ih =>
    obtain ⟨m, rfl⟩ : ∃ m, n = m + 1 := ⟨n - 1, by simp at h; omega⟩
    have hm : ts.length < m := by simp at h; omega
    simp [List.replicate_succ, interleave, ih m hm]

theorem interleave_events_first (n m : Nat) (ts es : List Effect) (eE : Option Nat)
    (hn : es.length < n) (hm : ts.length < m) :
    interleave (List.replicate n Turn.events ++ List.replicate m Turn.timer) ts es eE =
      match eE with
      | some code => (es, some code)
      | none => (es ++ ts, some 0) := by
  induction es generalizing n with
  | nil =>
    obtain ⟨n', rfl⟩ : ∃ n', n = n' + 1 := ⟨n - 1, by simp at hn; omega⟩
    cases eE with
    | some code => simp [List.replicate_succ, interleave]
    | none =>
      simp only [List.replicate_succ, List.cons_append, interleave, List.nil_append]
      clear hn
      induction n' with
      | zero => simpa using interleave_timer_only m ts hm
      | succ k ihk => simpa [List.replicate_succ, interleave] using ihk
  | cons e es ih =>
    obtain ⟨n', rfl⟩ : ∃ n', n = n' + 1 := ⟨n - 1, by simp at hn; omega⟩
    have hn' : es.length < n' := by simp at hn; omega
    have h := ih n' hn'
    cases eE with
    | some code => simp_all [List.replicate_succ, interleave]
    | none => simp_all [List.replicate_succ, interleave]

theorem concurrentPhase_events_first (cfg : Config) (timestamp : String)
    (deleteErr : Nat → Option String) (updateErr : Option String) (events : List Event)
    (closed : Bool) (n m : Nat)
    (hn : (eventLoop cfg.allowedUserIDs cfg.unauthorizedMessage deleteErr events closed
      0).effects.length < n) (hm : 3 < m) :
    (concurrentPhase cfg timestamp deleteErr updateErr events closed
        (List.replicate n Turn.events ++ List.replicate m Turn.timer)).1 =
      (afterPost cfg timestamp deleteErr updateErr events closed).effects ∧
    (concurrentPhase cfg timestamp deleteErr updateErr events closed
        (List.replicate n Turn.events ++ List.replicate m Turn.timer)).2.map Status.exited =
      some (afterPost cfg timestamp deleteErr updateErr events closed).status := by
  have h := interleave_events_first n m
    (timeoutHandler cfg.channelID timestamp cfg.timeoutSec cfg.timeoutMessage updateErr).effects
    (eventLoop cfg.allowedUserIDs cfg.unauthorizedMessage deleteErr events closed 0).effects
    (eventLoop cfg.allowedUserIDs cfg.unauthorizedMessage deleteErr events closed 0).exit
    hn (by simpa [timeoutHandler] using hm)
  simp only [concurrentPhase, afterPost]
  rw [h]
  cases hx : (eventLoop cfg.allowedUserIDs cfg.unauthorizedMessage deleteErr events closed
      0).exit with
  | some code => simp
  | none => simp [timeoutHandler]

/-- Counterexample to C1 as stated, with `U1` allowed and the message posted as
`("C1", "100.1")`.  First run: the timer fires while the authorized delete of the posted
message is being handled: `DeleteMessage` succeeds on `("C1", "100.1")`, then the timeout
goroutine calls `UpdateMessage` on the same message before the event goroutine reaches
`os.Exit(0)`: both mutations are executed.  Second run, events handled before the timer
fires: the authorized `DeleteMessage` returns an error and the timer then fires: both are
executed again.  Third run: a disconnect event ends the process and neither is executed. -/
theorem C1_counterexample_both_and_neither :
    concurrentPhase sampleConfig "100.1" (fun _ => none) none
        [deleteEvent "U1" "C1" "100.1" "e1"] false
        [Turn.timer, Turn.events, Turn.timer, Turn.events, Turn.events, Turn.events] =
      ([Effect.sleep (secondsDuration 5),
        Effect.deleteMessage "C1" "100.1",
        Effect.updateMessage "C1" "100.1" [timeoutTextBlock "expired"],
        Effect.ack ⟨"e1"⟩,
        Effect.println "Message deleted successfully"], some 0) ∧
    countDeletes (afterPost sampleConfig "100.1" (fun _ => some "message_not_found") none
        [deleteEvent "U1" "C1" "100.1" "e1"] false).effects = 1 ∧
    countUpdates (afterPost sampleConfig "100.1" (fun _ => some "message_not_found") none
        [deleteEvent "U1" "C1" "100.1" "e1"] false).effects = 1 ∧
    afterPost sampleConfig "100.1" (fun _ => none) none
        [⟨EventType.Disconnect, EventData.Opaque, ⟨"e1"⟩⟩] false =
      ⟨[Effect.println "Disconnected from Slack, exiting"], Status.exited 1⟩ := by
  refine ⟨by decide, by decide, by decide, by decide⟩

/-- C1 (amended): the timeout goroutine and the event goroutine are not synchronised.
Across every interleaving of their calls, `UpdateMessage` is executed at most once and
only on the posted handle with the timeout text; a run that ends with exit code 0 has
executed at least one of `UpdateMessage` and `DeleteMessage` (never neither); and when
the event goroutine makes no `DeleteMessage` call for the events it receives, a run that
ends with exit code 0 has executed `UpdateMessage` exactly once and `DeleteMessage`
never.  Both calls may occur in one run, and a run ended by a disconnect (exit code 1)
may contain neither. -/
theorem C1_interleavings (cfg : Config) (timestamp : String)
    (deleteErr : Nat → Option String) (updateErr : Option String) (events : List Event)
    (closed : Bool) (sched : List Turn) :
    countUpdates (concurrentPhase cfg timestamp deleteErr updateErr events closed sched).1 ≤ 1 ∧
    (∀ e ∈ (concurrentPhase cfg timestamp deleteErr updateErr events closed sched).1,
      e.isUpdate = true →
        e = Effect.updateMessage cfg.channelID timestamp
          [Block.Section ⟨"mrkdwn", cfg.timeoutMessage, false, false⟩]) ∧
    ((concurrentPhase cfg timestamp deleteErr updateErr events closed sched).2 = some 0 →
      1 ≤ countUpdates (concurrentPhase cfg timestamp deleteErr updateErr events closed sched).1 +
        countDeletes (concurrentPhase cfg timestamp deleteErr updateErr events closed sched).1) ∧
    ((concurrentPhase cfg timestamp deleteErr updateErr events closed sched).2 = some 0 →
      countDeletes (eventLoop cfg.allowedUserIDs cfg.unauthorizedMessage deleteErr events
        closed 0).effects = 0 →
      countUpdates (concurrentPhase cfg timestamp deleteErr updateErr events closed sched).1 = 1 ∧
        countDeletes (concurrentPhase cfg timestamp deleteErr updateErr events closed sched).1 =
          0) := by
  have hnoE := countUpdates_eq_zero _
    (eventLoop_no_update cfg.allowedUserIDs cfg.unauthorizedMessage deleteErr events closed 0)
  have hT : countUpdates (timeoutHandler cfg.channelID timestamp cfg.timeoutSec
      cfg.timeoutMessage updateErr).effects = 1 := rfl
  have hTd : countDeletes (timeoutHandler cfg.channelID timestamp cfg.timeoutSec
      cfg.timeoutMessage updateErr).effects = 0 := rfl
  have hle := interleave_countP_le Effect.isUpdate sched
    (timeoutHandler cfg.channelID timestamp cfg.timeoutSec cfg.timeoutMessage updateErr).effects
    (eventLoop cfg.allowedUserIDs cfg.unauthorizedMessage deleteErr events closed 0).effects
    (eventLoop cfg.allowedUserIDs cfg.unauthorizedMessage deleteErr events closed 0).exit
  have hled := interleave_countP_le Effect.isDelete sched
    (timeoutHandler cfg.channelID timestamp cfg.timeoutSec cfg.timeoutMessage updateErr).effects
    (eventLoop cfg.allowedUserIDs cfg.unauthorizedMessage deleteErr events closed 0).effects
    (eventLoop cfg.allowedUserIDs cfg.unauthorizedMessage deleteErr events closed 0).exit
  have hzero : (eventLoop cfg.allowedUserIDs cfg.unauthorizedMessage deleteErr events closed
      0).exit = some 0 →
      1 ≤ countDeletes (eventLoop cfg.allowedUserIDs cfg.unauthorizedMessage deleteErr events
        closed 0).effects := by
    intro hx
    have hd := eventLoop_exit_zero_has_delete cfg.allowedUserIDs cfg.unauthorizedMessage
      deleteErr events closed 0 hx
    have hne := (countDeletes_pos_iff _).2 hd
    omega
  simp only [countUpdates, countDeletes] at hnoE hT hTd hzero
  simp only [concurrentPhase, countUpdates, countDeletes]
  refine ⟨by omega, ?_, ?_, ?_⟩
  · intro e he hu
    rcases interleave_mem sched _ _ _ e he with h | h
    · simp only [timeoutHandler, List.mem_cons, List.mem_singleton, List.not_mem_nil,
        or_false] at h
      rcases h with rfl | rfl | rfl
      · simp [Effect.isUpdate] at hu
      · rfl
      · simp [Effect.isUpdate] at hu
    · have hno := eventLoop_no_update cfg.allowedUserIDs cfg.unauthorizedMessage deleteErr
        events closed 0 e h
      rw [hno] at hu
      exact absurd hu (by decide)
  · intro hx
    rcases interleave_exit sched _ _ _ 0 hx with ⟨_, h1⟩ | ⟨h2, h3⟩
    · have := h1 Effect.isUpdate
      omega
    · have hd := hzero h2
      have := h3 Effect.isDelete
      omega
  · intro hx hE
    rcases interleave_exit sched _ _ _ 0 hx with ⟨_, h1⟩ | ⟨h2, _⟩
    · have := h1 Effect.isUpdate
      exact ⟨by omega, by omega⟩
    · have hd := hzero h2
      omega

/-- Witness for C1: in the run where the timer fires while `U1` deletes the posted
message, the process exits with code 0 and at least one of the two calls was executed. -/
theorem C1_interleavings_witness :
    1 ≤ countUpdates (concurrentPhase sampleConfig "100.1" (fun _ => none) none
          [deleteEvent "U1" "C1" "100.1" "e1"] false
          [Turn.timer, Turn.events, Turn.timer, Turn.events, Turn.events, Turn.events]).1 +
        countDeletes (concurrentPhase sampleConfig "100.1" (fun _ => none) none
          [deleteEvent "U1" "C1" "100.1" "e1"] false
          [Turn.timer, Turn.events, Turn.timer, Turn.events, Turn.events, Turn.events]).1 :=
  (C1_interleavings sampleConfig "100.1" (fun _ => none) none
    [deleteEvent "U1" "C1" "100.1" "e1"] false
    [Turn.timer, Turn.events, Turn.timer, Turn.events, Turn.events, Turn.events]).2.2.1 rfl

end DelaySlackPost
